import Mathlib

/-!
Verification of the pixel-art / bead-recognition core of the `pindou`
repository.  The definitions below are shallow embeddings of the
JavaScript/TypeScript sources (`src/utils/pixelArt.js`,
`src/bead-recognition/colorUtils.ts`, `colorDatabase.ts`,
`gridDetectorV2.ts`, `gridDetector.ts`, `gridAnalyzerV2.ts`,
`colorRecognizer.ts`).  JavaScript numbers are modelled as exact
rationals where the computation is rational, and as real numbers where
the source uses `Math.sqrt` / `Math.pow` / trigonometry.
-/

open Real

namespace Pindou

/-- CIE-Lab triple `(L, a, b)` (colorUtils.ts). -/
abbrev Lab := ℝ × ℝ × ℝ

/-! ### Color utilities (colorUtils.ts) -/

/-- `srgbToLinear` from colorUtils.ts:
`v = c/255; v <= 0.04045 ? v/12.92 : ((v+0.055)/1.055)^2.4`. -/
noncomputable def srgbToLinear (c : ℝ) : ℝ :=
  let v := c / 255
  if v ≤ 0.04045 then v / 12.92 else ((v + 0.055) / 1.055) ^ (2.4 : ℝ)

/-- `linearRgbToXyz` from colorUtils.ts (D65 matrix). -/
noncomputable def linearRgbToXyz (r g b : ℝ) : ℝ × ℝ × ℝ :=
  let rl := srgbToLinear r
  let gl := srgbToLinear g
  let bl := srgbToLinear b
  (0.4124564 * rl + 0.3575761 * gl + 0.1804375 * bl,
   0.2126729 * rl + 0.7151522 * gl + 0.072175 * bl,
   0.0193339 * rl + 0.119192 * gl + 0.9503041 * bl)

/-- The piecewise `f` of `xyzToLab`:
`t > 0.008856 ? t^(1/3) : 7.787*t + 16/116`. -/
noncomputable def labF (t : ℝ) : ℝ :=
  if t > 0.008856 then t ^ ((1 : ℝ)/3) else 7.787 * t + 16/116

/-- `xyzToLab` from colorUtils.ts (D65 white point). -/
noncomputable def xyzToLab (x y z : ℝ) : Lab :=
  let xn := x / 0.95047
  let yn := y / 1
  let zn := z / 1.08883
  (116 * labF yn - 16, 500 * (labF xn - labF yn), 200 * (labF yn - labF zn))

/-- `rgbToLab` from colorUtils.ts. -/
noncomputable def rgbToLab (r g b : ℝ) : Lab :=
  let xyz := linearRgbToXyz r g b
  xyzToLab xyz.1 xyz.2.1 xyz.2.2

/-- JavaScript `Math.atan2` (signed zeros ignored: `atan2 0 0 = 0`). -/
noncomputable def atan2 (y x : ℝ) : ℝ :=
  if 0 < x then arctan (y / x)
  else if x < 0 then
    (if 0 ≤ y then arctan (y / x) + π else arctan (y / x) - π)
  else if 0 < y then π / 2
  else if y < 0 then -(π / 2)
  else 0

/-! ΔE2000 (`deltaE2000` in colorUtils.ts).  Each helper mirrors one or
two lines of the source. -/

/-- `C1 = sqrt(a1*a1 + b1*b1)` (chroma). -/
noncomputable def chromaOf (a b : ℝ) : ℝ := Real.sqrt (a * a + b * b)

/-- `G = 0.5*(1 - sqrt(Cb^7/(Cb^7 + 6103515625)))` where `Cb = (C1+C2)/2`. -/
noncomputable def gOf (C1 C2 : ℝ) : ℝ :=
  let Cb := (C1 + C2) / 2
  0.5 * (1 - Real.sqrt (Cb ^ 7 / (Cb ^ 7 + 6103515625)))

/-- `h1p = atan2(b1, a1p) * (180/PI)` followed by
`H1p = h1p >= 0 ? h1p : h1p + 360`. -/
noncomputable def huePos (b ap : ℝ) : ℝ :=
  let h := atan2 b ap * (180 / π)
  if h ≥ 0 then h else h + 360

/-- The wrap of `dH = H2p - H1p`:
`if |dH| > 180 then dH += dH > 0 ? -360 : 360`. -/
noncomputable def hueWrap (d : ℝ) : ℝ :=
  if |d| > 180 then (if d > 0 then d - 360 else d + 360) else d

/-- `Hb = H1p + H2p; if |H1p - H2p| > 180 then Hb += 360; Hb /= 2`. -/
noncomputable def hueMean (H1 H2 : ℝ) : ℝ :=
  if |H1 - H2| > 180 then (H1 + H2 + 360) / 2 else (H1 + H2) / 2

/-- The `T` weighting factor of ΔE2000. -/
noncomputable def tOf (Hb : ℝ) : ℝ :=
  1 - 0.17 * Real.cos ((Hb - 30) * (π / 180))
    + 0.24 * Real.cos (2 * Hb * (π / 180))
    + 0.32 * Real.cos ((3 * Hb + 6) * (π / 180))
    - 0.2 * Real.cos ((4 * Hb - 63) * (π / 180))

/-- `deltaE2000(lab1, lab2)` from colorUtils.ts. -/
noncomputable def deltaE2000 (lab1 lab2 : Lab) : ℝ :=
  let L1 := lab1.1; let a1 := lab1.2.1; let b1 := lab1.2.2
  let L2 := lab2.1; let a2 := lab2.2.1; let b2 := lab2.2.2
  let C1 := chromaOf a1 b1
  let C2 := chromaOf a2 b2
  let G := gOf C1 C2
  let a1p := a1 * (1 + G)
  let a2p := a2 * (1 + G)
  let C1p := chromaOf a1p b1
  let C2p := chromaOf a2p b2
  let H1p := huePos b1 a1p
  let H2p := huePos b2 a2p
  let dL := L2 - L1
  let dC := C2p - C1p
  let dH := 2 * Real.sqrt (C1p * C2p) * Real.sin (hueWrap (H2p - H1p) * π / 360)
  let Lb := (L1 + L2) / 2
  let Cb2 := (C1p + C2p) / 2
  let Hb := hueMean H1p H2p
  let T := tOf Hb
  let dTheta := 30 * Real.exp (-(((Hb - 275) / 25) ^ 2))
  let Rc := 2 * Real.sqrt (Cb2 ^ 7 / (Cb2 ^ 7 + 6103515625))
  let Sl := 1 + 0.015 * (Lb - 50) ^ 2 / Real.sqrt (20 + (Lb - 50) ^ 2)
  let Sc := 1 + 0.045 * Cb2
  let Sh := 1 + 0.015 * Cb2 * T
  let Rt := -Real.sin (2 * dTheta * π / 180) * Rc
  Real.sqrt ((dL / Sl) ^ 2 + (dC / Sc) ^ 2 + (dH / Sh) ^ 2
    + Rt * (dC / Sc) * (dH / Sh))

lemma gOf_comm (C1 C2 : ℝ) : gOf C2 C1 = gOf C1 C2 := by
  simp only [gOf, add_comm]

lemma hueWrap_neg (d : ℝ) : hueWrap (-d) = -hueWrap d := by
  unfold hueWrap
  by_cases h : |d| > 180
  · have hd : d ≠ 0 := by
      intro h0; rw [h0] at h; simp at h; linarith
    rw [abs_neg]
    simp only [h, if_pos]
    by_cases hpos : d > 0
    · have : ¬ (-d > 0) := by linarith
      simp only [hpos, this, if_pos, if_neg, if_false]
      ring
    · have hneg : d < 0 := lt_of_le_of_ne (le_of_not_lt hpos) hd
      have : -d > 0 := by linarith
      simp only [hpos, this, if_pos, if_neg, if_false]
      ring
  · rw [abs_neg]
    simp only [h, if_neg, not_false_iff]

lemma hueMean_comm (H1 H2 : ℝ) : hueMean H2 H1 = hueMean H1 H2 := by
  unfold hueMean
  rw [abs_sub_comm]
  by_cases h : |H1 - H2| > 180
  · simp only [h, if_pos]; ring_nf
  · simp only [h, if_neg, not_false_iff]; ring_nf

/-- ΔE2000 is literally symmetric in its two arguments. -/
theorem deltaE2000_comm (p q : Lab) : deltaE2000 p q = deltaE2000 q p := by
  obtain ⟨L1, a1, b1⟩ := p
  obtain ⟨L2, a2, b2⟩ := q
  unfold deltaE2000
  simp only
  rw [gOf_comm (chromaOf a2 b2) (chromaOf a1 b1)]
  set G := gOf (chromaOf a2 b2) (chromaOf a1 b1) with hG
  set C1p := chromaOf (a1 * (1 + G)) b1 with hC1p
  set C2p := chromaOf (a2 * (1 + G)) b2 with hC2p
  set H1p := huePos b1 (a1 * (1 + G)) with hH1p
  set H2p := huePos b2 (a2 * (1 + G)) with hH2p
  rw [hueMean_comm H2p H1p]
  rw [show H1p - H2p = -(H2p - H1p) from by ring, hueWrap_neg]
  rw [show -hueWrap (H2p - H1p) * π / 360 = -(hueWrap (H2p - H1p) * π / 360)
      from by ring, Real.sin_neg]
  rw [mul_comm C2p C1p, add_comm L2 L1, add_comm C2p C1p]
  congr 1
  ring

/-- **C9.** For all Lab triples `a` and `b`, `deltaE2000 a b` equals
`deltaE2000 b a` to within `1e-6` (in fact they are equal). -/
theorem deltaE2000_symm_within_1e6 (p q : Lab) :
    |deltaE2000 p q - deltaE2000 q p| ≤ 1e-6 := by
  rw [deltaE2000_comm p q, sub_self, abs_zero]
  norm_num

/-! ### Color database (colorDatabase.ts) -/

/-- One hexadecimal digit (used by `parseInt(h, 16)` in `hexToRgb`);
invalid characters give 0 for definiteness (well-formed color cards never
contain them). -/
def hexDigit (c : Char) : ℕ :=
  if '0' ≤ c ∧ c ≤ '9' then c.toNat - '0'.toNat
  else if 'a' ≤ c ∧ c ≤ 'f' then c.toNat - 'a'.toNat + 10
  else if 'A' ≤ c ∧ c ≤ 'F' then c.toNat - 'A'.toNat + 10
  else 0

/-- `parseInt(h, 16)` for a hex string (after stripping `#`). -/
def parseHex (s : List Char) : ℕ := s.foldl (fun n c => 16 * n + hexDigit c) 0

/-- `hexToRgb` from colorUtils.ts: strip the leading `#`, parse base-16,
split into bytes `(n >> 16) & 0xff, (n >> 8) & 0xff, n & 0xff`. -/
def hexToRgb (hex : String) : ℕ × ℕ × ℕ :=
  let h := match hex.toList with
    | '#' :: rest => rest
    | l => l
  let n := parseHex h
  (n / 65536 % 256, n / 256 % 256, n % 256)

/-- `BeadColor` from types.ts. -/
structure BeadColor where
  name : String
  code : String
  rgb : ℕ × ℕ × ℕ
  lab : Lab

/-- `ColorMatch` from types.ts. -/
structure ColorMatch where
  beadColor : BeadColor
  confidence : ℝ
  deltaE : ℝ

/-- `ColorDatabase.loadFromColorCards`: prepend `#` when missing (the
`hex.startsWith("#")` test, expressed on the character list), compute
RGB and Lab per entry (cards are `(name, hex)` pairs). -/
noncomputable def loadFromColorCards (cards : List (String × String)) :
    List BeadColor :=
  cards.map (fun c =>
    let hex := match c.2.toList with
      | '#' :: _ => c.2
      | _ => "#" ++ c.2
    let rgb := hexToRgb hex
    { name := c.1, code := c.1, rgb := rgb,
      lab := rgbToLab rgb.1 rgb.2.1 rgb.2.2 })

/-- One iteration of the scan loop in `ColorDatabase.findClosestColor`:
`if (de < bestDe) { bestDe = de; best = c }`. -/
noncomputable def closestStep (lab : Lab) (p : BeadColor × ℝ) (c : BeadColor) :
    BeadColor × ℝ :=
  let de := deltaE2000 lab c.lab
  if de < p.2 then (c, de) else p

/-- The confidence mapping of `findClosestColor`:
`bestDe < 2 ? 1 : max(0, 1 - (bestDe - 2) / 15)`. -/
noncomputable def matchConfidence (bestDe : ℝ) : ℝ :=
  if bestDe < 2 then 1 else max 0 (1 - (bestDe - 2) / 15)

/-- `ColorDatabase.findClosestColor`: `null` on an empty database, else a
linear scan starting from the first entry. -/
noncomputable def findClosestColor (colors : List BeadColor) (lab : Lab) :
    Option ColorMatch :=
  match colors with
  | [] => none
  | c0 :: rest =>
    let best := rest.foldl (closestStep lab) (c0, deltaE2000 lab c0.lab)
    some ⟨best.1, matchConfidence best.2, best.2⟩

/-- Invariant of the `findClosestColor` scan: the running pair either stays
at its initial value (and nothing scanned is strictly better), or lands on
the first element of the scanned suffix attaining the overall minimum. -/
lemma closestStep_foldl_spec (lab : Lab) :
    ∀ (l : List BeadColor) (b0 : BeadColor) (d0 : ℝ),
    (l.foldl (closestStep lab) (b0, d0) = (b0, d0) ∧
      ∀ c ∈ l, d0 ≤ deltaE2000 lab c.lab) ∨
    (∃ i : Fin l.length,
      l.foldl (closestStep lab) (b0, d0) =
        (l.get i, deltaE2000 lab (l.get i).lab) ∧
      deltaE2000 lab (l.get i).lab < d0 ∧
      (∀ j : Fin l.length, j.val < i.val →
        deltaE2000 lab (l.get i).lab < deltaE2000 lab (l.get j).lab) ∧
      (∀ j : Fin l.length,
        deltaE2000 lab (l.get i).lab ≤ deltaE2000 lab (l.get j).lab)) := by
  intro l
  induction l with
  | nil => intro b0 d0; left; exact ⟨rfl, by simp⟩
  | cons c l' ih =>
    intro b0 d0
    by_cases hc : deltaE2000 lab c.lab < d0
    · have hstep : closestStep lab (b0, d0) c = (c, deltaE2000 lab c.lab) := by
        simp [closestStep, hc]
      rcases ih c (deltaE2000 lab c.lab) with ⟨heq, hall⟩ | ⟨i, heq, hlt, hfirst, hmin⟩
      · right
        refine ⟨⟨0, by simp⟩, ?_, ?_, ?_, ?_⟩
        · simpa [hstep, heq]
        · simpa using hc
        · intro j hj
          simp only [Fin.val_mk] at hj
          exact absurd hj (Nat.not_lt_zero _)
        · intro j
          rcases j with ⟨jv, hjv⟩
          cases jv with
          | zero => simp
          | succ k =>
            simp only [List.get_cons_succ, List.length_cons] at *
            exact hall _ (l'.get_mem _ _)
      · right
        refine ⟨⟨i.val + 1, by simpa using Nat.succ_lt_succ i.isLt⟩, ?_, ?_, ?_, ?_⟩
        · simpa [hstep] using heq
        · calc deltaE2000 lab ((c :: l').get ⟨i.val + 1, _⟩).lab
              = deltaE2000 lab (l'.get i).lab := by simp
            _ < deltaE2000 lab c.lab := hlt
            _ < d0 := hc
        · intro j hj
          rcases j with ⟨jv, hjv⟩
          cases jv with
          | zero => simpa using hlt
          | succ k =>
            have hk : k < i.val := by
              simp only [Fin.val_mk] at hj; omega
            simpa using hfirst ⟨k, lt_trans hk i.isLt⟩ hk
        · intro j
          rcases j with ⟨jv, hjv⟩
          cases jv with
          | zero => simpa using (le_of_lt hlt)
          | succ k =>
            have hk : k < l'.length := by simpa using hjv
            simpa using hmin ⟨k, hk⟩
    · have hstep : closestStep lab (b0, d0) c = (b0, d0) := by
        simp [closestStep, hc]
      have hcd : d0 ≤ deltaE2000 lab c.lab := le_of_not_lt hc
      rcases ih b0 d0 with ⟨heq, hall⟩ | ⟨i, heq, hlt, hfirst, hmin⟩
      · left
        refine ⟨by simpa [hstep] using heq, ?_⟩
        intro x hx
        rcases List.mem_cons.mp hx with rfl | hx'
        · exact hcd
        · exact hall x hx'
      · right
        refine ⟨⟨i.val + 1, by simpa using Nat.succ_lt_succ i.isLt⟩, ?_, ?_, ?_, ?_⟩
        · simpa [hstep] using heq
        · simpa using hlt
        · intro j hj
          rcases j with ⟨jv, hjv⟩
          cases jv with
          | zero => simpa using lt_of_lt_of_le (by simpa using hlt) hcd
          | succ k =>
            have hk : k < i.val := by
              simp only [Fin.val_mk] at hj; omega
            simpa using hfirst ⟨k, lt_trans hk i.isLt⟩ hk
        · intro j
          rcases j with ⟨jv, hjv⟩
          cases jv with
          | zero => simpa using le_trans (le_of_lt (by simpa using hlt)) hcd
          | succ k =>
            have hk : k < l'.length := by simpa using hjv
            simpa using hmin ⟨k, hk⟩

/-- One iteration of the palette-matching loop in `generatePixelArt`
(pixelArt.js lines 216–223): `if (d < minDist) { minDist = d; minIdx = j }`;
`minDist` starts at `Infinity` (modelled by `none`) and `minIdx` at 0. -/
noncomputable def nearestStep (q : Lab) (st : ℕ × Option ℝ) (jp : ℕ × Lab) :
    ℕ × Option ℝ :=
  let d := deltaE2000 q jp.2
  match st.2 with
  | none => (jp.1, some d)
  | some b => if d < b then (jp.1, some d) else st

/-- `minIdx` after the palette-matching loop of `generatePixelArt`. -/
noncomputable def nearestIdx (q : Lab) (plabs : List Lab) : ℕ :=
  (plabs.enum.foldl (nearestStep q) (0, none)).1

/-- Invariant of the quantizer matching loop once a candidate is held. -/
lemma nearestStep_foldl_spec (q : Lab) :
    ∀ (l : List Lab) (k bi : ℕ) (b : ℝ),
    ((List.enumFrom k l).foldl (nearestStep q) (bi, some b) = (bi, some b) ∧
      ∀ x ∈ l, b ≤ deltaE2000 q x) ∨
    (∃ i : Fin l.length,
      (List.enumFrom k l).foldl (nearestStep q) (bi, some b) =
        (k + i.val, some (deltaE2000 q (l.get i))) ∧
      deltaE2000 q (l.get i) < b ∧
      (∀ j : Fin l.length, j.val < i.val →
        deltaE2000 q (l.get i) < deltaE2000 q (l.get j)) ∧
      (∀ j : Fin l.length, deltaE2000 q (l.get i) ≤ deltaE2000 q (l.get j))) := by
  intro l
  induction l with
  | nil => intro k bi b; left; exact ⟨rfl, by simp⟩
  | cons x l' ih =>
    intro k bi b
    simp only [List.enumFrom, List.foldl_cons]
    by_cases hx : deltaE2000 q x < b
    · have hstep : nearestStep q (bi, some b) (k, x) =
          (k, some (deltaE2000 q x)) := by
        simp [nearestStep, hx]
      rw [hstep]
      rcases ih (k + 1) k (deltaE2000 q x) with ⟨heq, hall⟩ | ⟨i, heq, hlt, hfirst, hmin⟩
      · right
        refine ⟨⟨0, by simp⟩, ?_, by simpa using hx, ?_, ?_⟩
        · simpa [heq]
        · intro j hj
          simp only [Fin.val_mk] at hj
          exact absurd hj (Nat.not_lt_zero _)
        · intro j
          rcases j with ⟨jv, hjv⟩
          cases jv with
          | zero => simp
          | succ m =>
            simp only [List.get_cons_succ, List.get_cons_zero]
            exact hall _ (l'.get_mem _ _)
      · right
        refine ⟨⟨i.val + 1, by simpa using Nat.succ_lt_succ i.isLt⟩, ?_, ?_, ?_, ?_⟩
        · rw [heq]; simp; omega
        · exact lt_trans (by simpa using hlt) hx
        · intro j hj
          rcases j with ⟨jv, hjv⟩
          cases jv with
          | zero => simpa using hlt
          | succ m =>
            have hm : m < i.val := by
              simp only [Fin.val_mk] at hj; omega
            simpa using hfirst ⟨m, lt_trans hm i.isLt⟩ hm
        · intro j
          rcases j with ⟨jv, hjv⟩
          cases jv with
          | zero => simpa using (le_of_lt hlt)
          | succ m =>
            have hm : m < l'.length := by simpa using hjv
            simpa using hmin ⟨m, hm⟩
    · have hstep : nearestStep q (bi, some b) (k, x) = (bi, some b) := by
        simp [nearestStep, hx]
      rw [hstep]
      have hxb : b ≤ deltaE2000 q x := le_of_not_lt hx
      rcases ih (k + 1) bi b with ⟨heq, hall⟩ | ⟨i, heq, hlt, hfirst, hmin⟩
      · left
        refine ⟨heq, ?_⟩
        intro y hy
        rcases List.mem_cons.mp hy with rfl | hy'
        · exact hxb
        · exact hall y hy'
      · right
        refine ⟨⟨i.val + 1, by simpa using Nat.succ_lt_succ i.isLt⟩, ?_, ?_, ?_, ?_⟩
        · rw [heq]; simp; omega
        · simpa using hlt
        · intro j hj
          rcases j with ⟨jv, hjv⟩
          cases jv with
          | zero => simpa using lt_of_lt_of_le (by simpa using hlt) hxb
          | succ m =>
            have hm : m < i.val := by
              simp only [Fin.val_mk] at hj; omega
            simpa using hfirst ⟨m, lt_trans hm i.isLt⟩ hm
        · intro j
          rcases j with ⟨jv, hjv⟩
          cases jv with
          | zero => simpa using le_trans (le_of_lt (by simpa using hlt)) hxb
          | succ m =>
            have hm : m < l'.length := by simpa using hjv
            simpa using hmin ⟨m, hm⟩

/-- **C2.** For every non-empty database/palette and every query Lab value,
`ColorDatabase.findClosestColor` and the palette-matching loop of the
Quantizer (`nearestIdx`) both return the entry achieving the minimum
ΔE2000 distance, breaking ties by first insertion order; in particular a
strictly-farther entry is never returned. -/
theorem findClosestColor_nearestIdx_argmin
    (colors : List BeadColor) (lab : Lab) (plabs : List Lab) (q : Lab)
    (hc : colors ≠ []) (hp : plabs ≠ []) :
    (∃ m, findClosestColor colors lab = some m ∧
      m.deltaE = deltaE2000 lab m.beadColor.lab ∧
      (∃ i : Fin colors.length,
        m.beadColor = colors.get i ∧
        (∀ j : Fin colors.length,
          m.deltaE ≤ deltaE2000 lab (colors.get j).lab) ∧
        (∀ j : Fin colors.length, j.val < i.val →
          m.deltaE < deltaE2000 lab (colors.get j).lab)) ∧
      (∀ jB : Fin colors.length,
        m.deltaE < deltaE2000 lab (colors.get jB).lab →
        m.beadColor ≠ colors.get jB)) ∧
    (∃ i : Fin plabs.length, nearestIdx q plabs = i.val ∧
      (∀ j : Fin plabs.length,
        deltaE2000 q (plabs.get i) ≤ deltaE2000 q (plabs.get j)) ∧
      (∀ j : Fin plabs.length, j.val < i.val →
        deltaE2000 q (plabs.get i) < deltaE2000 q (plabs.get j))) := by
  constructor
  · -- findClosestColor
    obtain ⟨c0, rest, rfl⟩ : ∃ c0 rest, colors = c0 :: rest := by
      cases colors with
      | nil => exact absurd rfl hc
      | cons a l => exact ⟨a, l, rfl⟩
    rcases closestStep_foldl_spec lab rest c0 (deltaE2000 lab c0.lab) with
      ⟨heq, hall⟩ | ⟨i, heq, hlt, hfirst, hmin⟩
    · refine ⟨⟨c0, matchConfidence (deltaE2000 lab c0.lab),
        deltaE2000 lab c0.lab⟩, ?_, rfl, ?_, ?_⟩
      · simp [findClosestColor, heq]
      · refine ⟨⟨0, by simp⟩, by simp, ?_, ?_⟩
        · intro j
          rcases j with ⟨jv, hjv⟩
          cases jv with
          | zero => simp
          | succ k =>
            simp only [List.get_cons_succ]
            exact hall _ (rest.get_mem _ _)
        · intro j hj
          simp only [Fin.val_mk] at hj
          exact absurd hj (Nat.not_lt_zero _)
      · intro jB hB hcontra
        simp only at hB hcontra
        rw [← hcontra] at hB
        exact lt_irrefl _ hB
    · refine ⟨⟨rest.get i, matchConfidence (deltaE2000 lab (rest.get i).lab),
        deltaE2000 lab (rest.get i).lab⟩, ?_, rfl, ?_, ?_⟩
      · simp [findClosestColor, heq]
      · refine ⟨⟨i.val + 1, by simpa using Nat.succ_lt_succ i.isLt⟩, by simp, ?_, ?_⟩
        · intro j
          rcases j with ⟨jv, hjv⟩
          cases jv with
          | zero => simpa using le_of_lt hlt
          | succ k =>
            have hk : k < rest.length := by simpa using hjv
            simpa using hmin ⟨k, hk⟩
        · intro j hj
          rcases j with ⟨jv, hjv⟩
          cases jv with
          | zero => simpa using hlt
          | succ k =>
            have hk : k < i.val := by
              simp only [Fin.val_mk] at hj; omega
            simpa using hfirst ⟨k, lt_trans hk i.isLt⟩ hk
      · intro jB hB hcontra
        simp only at hB hcontra
        rw [← hcontra] at hB
        exact lt_irrefl _ hB
  · -- quantizer loop
    obtain ⟨p0, rest, rfl⟩ : ∃ p0 rest, plabs = p0 :: rest := by
      cases plabs with
      | nil => exact absurd rfl hp
      | cons a l => exact ⟨a, l, rfl⟩
    have henum : (p0 :: rest).enum = (0, p0) :: List.enumFrom 1 rest := by
      simp [List.enum]
    have hstep0 : nearestStep q (0, none) (0, p0) =
        (0, some (deltaE2000 q p0)) := by
      simp [nearestStep]
    rcases nearestStep_foldl_spec q rest 1 0 (deltaE2000 q p0) with
      ⟨heq, hall⟩ | ⟨i, heq, hlt, hfirst, hmin⟩
    · refine ⟨⟨0, by simp⟩, ?_, ?_, ?_⟩
      · simp [nearestIdx, henum, hstep0, heq]
      · intro j
        rcases j with ⟨jv, hjv⟩
        cases jv with
        | zero => simp
        | succ k =>
          simp only [List.get_cons_succ, List.get_cons_zero, Fin.val_mk]
          simpa using hall _ (rest.get_mem _ _)
      · intro j hj
        simp only [Fin.val_mk] at hj
        exact absurd hj (Nat.not_lt_zero _)
    · refine ⟨⟨i.val + 1, by simpa using Nat.succ_lt_succ i.isLt⟩, ?_, ?_, ?_⟩
      · simp [nearestIdx, henum, hstep0, heq]; omega
      · intro j
        rcases j with ⟨jv, hjv⟩
        cases jv with
        | zero => simpa using le_of_lt hlt
        | succ k =>
          have hk : k < rest.length := by simpa using hjv
          simpa using hmin ⟨k, hk⟩
      · intro j hj
        rcases j with ⟨jv, hjv⟩
        cases jv with
        | zero => simpa using hlt
        | succ k =>
          have hk : k < i.val := by
            simp only [Fin.val_mk] at hj; omega
          simpa using hfirst ⟨k, lt_trans hk i.isLt⟩ hk

/-- Witness for C2 at a concrete one-entry database and palette. -/
theorem findClosestColor_nearestIdx_argmin_witness :
    ([({ name := "A", code := "A", rgb := (0, 0, 0),
         lab := ((0 : ℝ), (0 : ℝ), (0 : ℝ)) } : BeadColor)] ≠ []) ∧
    ([((0 : ℝ), (0 : ℝ), (0 : ℝ))] ≠ ([] : List Lab)) ∧
    ((∃ m, findClosestColor
        [{ name := "A", code := "A", rgb := (0, 0, 0),
           lab := ((0 : ℝ), (0 : ℝ), (0 : ℝ)) }] ((50 : ℝ), (0 : ℝ), (0 : ℝ))
        = some m ∧
      m.deltaE = deltaE2000 ((50 : ℝ), (0 : ℝ), (0 : ℝ)) m.beadColor.lab ∧
      (∃ i, m.beadColor =
          [({ name := "A", code := "A", rgb := (0, 0, 0),
              lab := ((0 : ℝ), (0 : ℝ), (0 : ℝ)) } : BeadColor)].get i ∧
        (∀ j, m.deltaE ≤ deltaE2000 ((50 : ℝ), (0 : ℝ), (0 : ℝ))
            ([({ name := "A", code := "A", rgb := (0, 0, 0),
                 lab := ((0 : ℝ), (0 : ℝ), (0 : ℝ)) } : BeadColor)].get j).lab) ∧
        (∀ j, j.val < i.val →
          m.deltaE < deltaE2000 ((50 : ℝ), (0 : ℝ), (0 : ℝ))
            ([({ name := "A", code := "A", rgb := (0, 0, 0),
                 lab := ((0 : ℝ), (0 : ℝ), (0 : ℝ)) } : BeadColor)].get j).lab)) ∧
      (∀ jB, m.deltaE < deltaE2000 ((50 : ℝ), (0 : ℝ), (0 : ℝ))
          ([({ name := "A", code := "A", rgb := (0, 0, 0),
               lab := ((0 : ℝ), (0 : ℝ), (0 : ℝ)) } : BeadColor)].get jB).lab →
        m.beadColor ≠
          [({ name := "A", code := "A", rgb := (0, 0, 0),
              lab := ((0 : ℝ), (0 : ℝ), (0 : ℝ)) } : BeadColor)].get jB)) ∧
    (∃ i, nearestIdx ((50 : ℝ), (0 : ℝ), (0 : ℝ))
        [((0 : ℝ), (0 : ℝ), (0 : ℝ))] = i.val ∧
      (∀ j, deltaE2000 ((50 : ℝ), (0 : ℝ), (0 : ℝ))
          ([((0 : ℝ), (0 : ℝ), (0 : ℝ))].get i) ≤
        deltaE2000 ((50 : ℝ), (0 : ℝ), (0 : ℝ))
          ([((0 : ℝ), (0 : ℝ), (0 : ℝ))].get j)) ∧
      (∀ j, j.val < i.val →
        deltaE2000 ((50 : ℝ), (0 : ℝ), (0 : ℝ))
            ([((0 : ℝ), (0 : ℝ), (0 : ℝ))].get i) <
          deltaE2000 ((50 : ℝ), (0 : ℝ), (0 : ℝ))
            ([((0 : ℝ), (0 : ℝ), (0 : ℝ))].get j)))) :=
  ⟨by simp, by simp,
    findClosestColor_nearestIdx_argmin _ _ _ _ (by simp) (by simp)⟩

/-! ### Block samplers and Quantizer (pixelArt.js) -/

/-- JavaScript `Math.round` (half away from zero for halves ≥ 0 — on the
nonnegative values used here, `round q = ⌊q + 1/2⌋`). -/
def jsRound (q : ℚ) : ℤ := ⌊q + 1/2⌋

/-- A decoded RGBA image: row-major, top-left origin, 4 bytes per pixel. -/
structure Img where
  width : ℕ
  height : ℕ
  data : List ℕ

/-- Read one channel byte; out-of-range reads are modelled as 0 (the
in-bounds behaviour, which is what C4/C10 are about, is unaffected). -/
def readChan (data : List ℕ) (i : ℤ) : ℕ :=
  if 0 ≤ i then data.getD i.toNat 0 else 0

/-- The RGB triple at flat pixel index `px` (channels `4·px .. 4·px+2`). -/
def readRGB (data : List ℕ) (px : ℤ) : ℕ × ℕ × ℕ :=
  (readChan data (px * 4), readChan data (px * 4 + 1), readChan data (px * 4 + 2))

/-- `Math.max(1, Math.floor(span * 0.15))` — the 15 % edge-trim margin. -/
def margin15 (span : ℕ) : ℕ := max 1 (⌊(span : ℚ) * 0.15⌋).toNat

/-- The integers `a, a+1, …, b-1` (empty when `b ≤ a`): the ranges of the
sampler loops. -/
def intRange (a b : ℤ) : List ℤ := (List.range (b - a).toNat).map (fun k => a + k)

/-- The row-major traversal of the (possibly trimmed) block: `y` outer
from `sy` to `ey-1`, `x` inner from `sx` to `ex-1`. -/
def blockCoords (sx sy ex ey : ℤ) : List (ℤ × ℤ) :=
  (intRange sy ey).bind (fun y => (intRange sx ex).map (fun x => (x, y)))

/-- The trimmed loop bounds `(sx, ex)` of the samplers:
`sx = x0 (+ margin)`, `ex = x0 + blockW (- margin)`. -/
def trimBounds (x0 : ℤ) (span : ℕ) (excludeEdge : Bool) : ℤ × ℤ :=
  if excludeEdge then (x0 + margin15 span, x0 + span - margin15 span)
  else (x0, x0 + span)

/-- `getDominantColor` (pixelArt.js lines 26–49): exact (R,G,B) counting,
ties kept at the first color reaching the maximal count; the accumulator
starts at black `(0,0,0)`. -/
def getDominantColor (data : List ℕ) (x0 y0 : ℤ) (blockW blockH : ℕ)
    (imgW : ℕ) (excludeEdge : Bool) : ℕ × ℕ × ℕ :=
  let bx := trimBounds x0 blockW excludeEdge
  let by' := trimBounds y0 blockH excludeEdge
  let step := fun (st : List ((ℕ × ℕ × ℕ) × ℕ) × ℕ × (ℕ × ℕ × ℕ))
      (xy : ℤ × ℤ) =>
    let key := readRGB data (xy.2 * imgW + xy.1)
    let n := (((st.1.find? (fun p => p.1 = key)).map (·.2)).getD 0) + 1
    let counts := (key, n) :: st.1.filter (fun p => ¬ p.1 = key)
    if n > st.2.1 then (counts, n, key) else (counts, st.2.1, st.2.2)
  ((blockCoords bx.1 by'.1 bx.2 by'.2).foldl step ([], 0, (0, 0, 0))).2.2

/-- `getAverageColor` (pixelArt.js lines 52–75): channel-wise mean with
`Math.round`, black when the (trimmed) block holds no pixel. -/
def getAverageColor (data : List ℕ) (x0 y0 : ℤ) (blockW blockH : ℕ)
    (imgW : ℕ) (excludeEdge : Bool) : ℕ × ℕ × ℕ :=
  let bx := trimBounds x0 blockW excludeEdge
  let by' := trimBounds y0 blockH excludeEdge
  let step := fun (st : ℕ × ℕ × ℕ × ℕ) (xy : ℤ × ℤ) =>
    let rgb := readRGB data (xy.2 * imgW + xy.1)
    (st.1 + rgb.1, st.2.1 + rgb.2.1, st.2.2.1 + rgb.2.2, st.2.2.2 + 1)
  let s := (blockCoords bx.1 by'.1 bx.2 by'.2).foldl step (0, 0, 0, 0)
  if s.2.2.2 > 0 then
    ((jsRound ((s.1 : ℚ) / s.2.2.2)).toNat,
     (jsRound ((s.2.1 : ℚ) / s.2.2.2)).toNat,
     (jsRound ((s.2.2.1 : ℚ) / s.2.2.2)).toNat)
  else (0, 0, 0)

/-- The in-block x offset of `getCenterColor`:
`floor(blockW/2)`, or `floor((blockW - 2·margin)/2) + margin` when
edge-trimmed. -/
def centerOffset (span : ℕ) (excludeEdge : Bool) : ℤ :=
  if excludeEdge then
    ⌊((span : ℚ) - 2 * margin15 span) / 2⌋ + margin15 span
  else ⌊(span : ℚ) / 2⌋

/-- `getCenterColor` (pixelArt.js lines 78–94). -/
def getCenterColor (data : List ℕ) (x0 y0 : ℤ) (blockW blockH : ℕ)
    (imgW : ℕ) (excludeEdge : Bool) : ℕ × ℕ × ℕ :=
  readRGB data ((y0 + centerOffset blockH excludeEdge) * imgW
    + (x0 + centerOffset blockW excludeEdge))

/-- The in-block x offset of `getDiagonal45Color`:
`floor(blockW·4/5)`, or `floor((blockW - 2·margin)·4/5) + margin` when
edge-trimmed. -/
def diagOffset (span : ℕ) (excludeEdge : Bool) : ℤ :=
  if excludeEdge then
    ⌊((span : ℚ) - 2 * margin15 span) * 4 / 5⌋ + margin15 span
  else ⌊(span : ℚ) * 4 / 5⌋

/-- `getDiagonal45Color` (pixelArt.js lines 97–115). -/
def getDiagonal45Color (data : List ℕ) (x0 y0 : ℤ) (blockW blockH : ℕ)
    (imgW : ℕ) (excludeEdge : Bool) : ℕ × ℕ × ℕ :=
  readRGB data ((y0 + diagOffset blockH excludeEdge) * imgW
    + (x0 + diagOffset blockW excludeEdge))

/-- Palette entry produced by `generatePixelArt`:
`{...hexToRgb(c.hex), name: c.name, hex: c.hex}`. -/
structure PixelColor where
  r : ℕ
  g : ℕ
  b : ℕ
  name : String
  hex : String
deriving DecidableEq

/-- The palette list built at pixelArt.js lines 175–179 from the color
table (a list of `(name, hex)` records). -/
def mkPalette (colorTable : List (String × String)) : List PixelColor :=
  colorTable.map (fun c =>
    let rgb := hexToRgb c.2
    { r := rgb.1, g := rgb.2.1, b := rgb.2.2, name := c.1, hex := c.2 })

/-- Modelled from the spec: the canvas `drawImage` rescale used by
`getResizedImageData` (mode `original`) is not part of the repository; the
spec (§4.D) prescribes a bilinear resample to exactly `W×H`.  Each output
pixel samples the source at the back-projected center with bilinear
weights, clamped to the source rectangle. -/
noncomputable def resampleBilinear (img : Img) (w h : ℕ) : List ℕ :=
  (List.range (w * h)).bind (fun p =>
    let x := p % w
    let y := p / w
    let fx : ℚ := max 0 (min ((img.width : ℚ) - 1)
      (((x : ℚ) + 1/2) * img.width / w - 1/2))
    let fy : ℚ := max 0 (min ((img.height : ℚ) - 1)
      (((y : ℚ) + 1/2) * img.height / h - 1/2))
    let x1 := ⌊fx⌋
    let y1 := ⌊fy⌋
    let x2 := min (x1 + 1) ((img.width : ℤ) - 1)
    let y2 := min (y1 + 1) ((img.height : ℤ) - 1)
    let ax := fx - x1
    let ay := fy - y1
    let chan := fun (c : ℤ) =>
      let v11 := (readChan img.data ((y1 * img.width + x1) * 4 + c) : ℚ)
      let v21 := (readChan img.data ((y1 * img.width + x2) * 4 + c) : ℚ)
      let v12 := (readChan img.data ((y2 * img.width + x1) * 4 + c) : ℚ)
      let v22 := (readChan img.data ((y2 * img.width + x2) * 4 + c) : ℚ)
      (jsRound ((1 - ay) * ((1 - ax) * v11 + ax * v21)
        + ay * ((1 - ax) * v12 + ax * v22))).toNat
    [chan 0, chan 1, chan 2, 255])

/-- `x0` of cell column `x`: `Math.round(x * blockW)` with
`blockW = imgW / pixelWidth` (pixelArt.js line 193). -/
def cellStart (imgW pixelWidth x : ℕ) : ℤ :=
  jsRound ((x : ℚ) * ((imgW : ℚ) / pixelWidth))

/-- The forced cell span `max(1, x1 - x0)` (pixelArt.js line 197). -/
def cellSpan (imgW pixelWidth x : ℕ) : ℤ :=
  max 1 (cellStart imgW pixelWidth (x + 1) - cellStart imgW pixelWidth x)

/-- The per-cell sample of `generatePixelArt` (pixelArt.js lines 191–213):
dispatch on the `colorMode` string, with the unknown-mode fallback to
`getDominantColor`. -/
noncomputable def samplePixel (data : List ℕ) (imgW imgH pixelWidth pixelHeight : ℕ)
    (colorMode : String) (excludeEdge : Bool) (x y : ℕ) : ℕ × ℕ × ℕ :=
  let x0 := if colorMode = "original" then (x : ℤ)
    else cellStart imgW pixelWidth x
  let y0 := if colorMode = "original" then (y : ℤ)
    else cellStart imgH pixelHeight y
  let w := if colorMode = "original" then 1
    else (cellSpan imgW pixelWidth x).toNat
  let h := if colorMode = "original" then 1
    else (cellSpan imgH pixelHeight y).toNat
  if colorMode = "diagonal45" then getDiagonal45Color data x0 y0 w h imgW excludeEdge
  else if colorMode = "dominant" then getDominantColor data x0 y0 w h imgW excludeEdge
  else if colorMode = "average" then getAverageColor data x0 y0 w h imgW excludeEdge
  else if colorMode = "center" then getCenterColor data x0 y0 w h imgW excludeEdge
  else if colorMode = "original" then readRGB data ((y : ℤ) * imgW + x)
  else getDominantColor data x0 y0 w h imgW excludeEdge

/-- The Lab versions of the palette entries (pixelArt.js lines 180–184);
`rgb_to_lab` of the external color-diff package is modelled by the
spec-prescribed `rgbToLab` (§4.A). -/
noncomputable def paletteLabs (pal : List PixelColor) : List Lab :=
  pal.map (fun p => rgbToLab p.r p.g p.b)

/-- The pixel grid `result` computed by `generatePixelArt`
(pixelArt.js lines 134–228, excluding the canvas rendering): row-major
`pixelHeight × pixelWidth`, each cell the palette entry nearest (ΔE2000)
to the block sample. -/
noncomputable def generatePixelArt (img : Img) (pixelWidth pixelHeight : ℕ)
    (colorTable : List (String × String)) (colorMode : String)
    (excludeEdge : Bool) : List (List PixelColor) :=
  let data := if colorMode = "original"
    then resampleBilinear img pixelWidth pixelHeight else img.data
  let imgW := if colorMode = "original" then pixelWidth else img.width
  let imgH := if colorMode = "original" then pixelHeight else img.height
  let palette := mkPalette colorTable
  let paletteLab := paletteLabs palette
  (List.range pixelHeight).map (fun y =>
    (List.range pixelWidth).map (fun x =>
      let rgb := samplePixel data imgW imgH pixelWidth pixelHeight
        colorMode excludeEdge x y
      let lab := rgbToLab rgb.1 rgb.2.1 rgb.2.2
      palette.getD (nearestIdx lab paletteLab)
        { r := 0, g := 0, b := 0, name := "", hex := "" }))

lemma getD_mem_of_lt {α : Type} (l : List α) (n : ℕ) (d : α)
    (h : n < l.length) : l.getD n d ∈ l := by
  induction l generalizing n with
  | nil => simp at h
  | cons a t ih =>
    cases n with
    | zero => simp [List.getD]
    | succ m =>
      have hm : m < t.length := by simpa using h
      simpa [List.getD] using Or.inr (by simpa [List.getD] using ih m hm)

/-- The quantizer matching loop always yields an index inside the
palette. -/
lemma nearestIdx_lt_length (q : Lab) (plabs : List Lab) (hp : plabs ≠ []) :
    nearestIdx q plabs < plabs.length := by
  obtain ⟨p0, rest, rfl⟩ : ∃ p0 rest, plabs = p0 :: rest := by
    cases plabs with
    | nil => exact absurd rfl hp
    | cons a l => exact ⟨a, l, rfl⟩
  have henum : (p0 :: rest).enum = (0, p0) :: List.enumFrom 1 rest := by
    simp [List.enum]
  have hstep0 : nearestStep q (0, none) (0, p0) =
      (0, some (deltaE2000 q p0)) := by
    simp [nearestStep]
  rcases nearestStep_foldl_spec q rest 1 0 (deltaE2000 q p0) with
    ⟨heq, _⟩ | ⟨i, heq, _, _, _⟩
  · simp [nearestIdx, henum, hstep0, heq]
  · have : nearestIdx q (p0 :: rest) = 1 + i.val := by
      simp [nearestIdx, henum, hstep0, heq]
    rw [this]
    have := i.isLt
    simp only [List.length_cons]
    omega

/-- Any cell value written by `generatePixelArt` is a palette entry. -/
lemma getD_nearest_mem (pal : List PixelColor) (hpal : pal ≠ [])
    (q : Lab) :
    pal.getD (nearestIdx q (paletteLabs pal))
      { r := 0, g := 0, b := 0, name := "", hex := "" } ∈ pal := by
  apply getD_mem_of_lt
  have hne : paletteLabs pal ≠ [] := by
    simp only [paletteLabs, ne_eq, List.map_eq_nil]
    exact hpal
  have h := nearestIdx_lt_length q (paletteLabs pal) hne
  simpa [paletteLabs] using h

/-- **C1.** For every source image of positive size, every target grid
`W×H` with `W,H ≥ 2`, every sampling mode and every non-empty palette,
`generatePixelArt` emits exactly `H` rows of exactly `W` cells, and every
cell is one of the palette entries built from the color table. -/
theorem generatePixelArt_shape_and_palette (img : Img) (W H : ℕ)
    (ct : List (String × String)) (mode : String) (excl : Bool)
    (hiw : 1 ≤ img.width) (hih : 1 ≤ img.height)
    (hW : 2 ≤ W) (hH : 2 ≤ H) (hct : ct ≠ []) :
    (generatePixelArt img W H ct mode excl).length = H ∧
    (∀ row ∈ generatePixelArt img W H ct mode excl, row.length = W) ∧
    (∀ row ∈ generatePixelArt img W H ct mode excl,
      ∀ cell ∈ row, cell ∈ mkPalette ct) := by
  refine ⟨by simp [generatePixelArt], ?_, ?_⟩
  · intro row hrow
    simp only [generatePixelArt, List.mem_map] at hrow
    obtain ⟨y, _, rfl⟩ := hrow
    simp
  · intro row hrow cell hcell
    simp only [generatePixelArt, List.mem_map] at hrow
    obtain ⟨y, _, rfl⟩ := hrow
    simp only [List.mem_map] at hcell
    obtain ⟨x, _, rfl⟩ := hcell
    apply getD_nearest_mem
    simp only [mkPalette, ne_eq, List.map_eq_nil]
    exact hct

/-- Witness for C1 on a 1×1 red image, 2×2 grid, `dominant` mode,
one-card palette. -/
theorem generatePixelArt_shape_and_palette_witness :
    (1 ≤ (Img.mk 1 1 [255, 0, 0, 255]).width ∧
     1 ≤ (Img.mk 1 1 [255, 0, 0, 255]).height ∧
     2 ≤ 2 ∧ ([("A", "#ff0000")] : List (String × String)) ≠ []) ∧
    ((generatePixelArt (Img.mk 1 1 [255, 0, 0, 255]) 2 2 [("A", "#ff0000")]
        "dominant" false).length = 2 ∧
     (∀ row ∈ generatePixelArt (Img.mk 1 1 [255, 0, 0, 255]) 2 2
        [("A", "#ff0000")] "dominant" false, row.length = 2) ∧
     (∀ row ∈ generatePixelArt (Img.mk 1 1 [255, 0, 0, 255]) 2 2
        [("A", "#ff0000")] "dominant" false,
        ∀ cell ∈ row, cell ∈ mkPalette [("A", "#ff0000")])) :=
  ⟨⟨by norm_num, by norm_num, by norm_num, by simp⟩,
    generatePixelArt_shape_and_palette _ 2 2 _ _ _
      (by norm_num) (by norm_num) (by norm_num) (by norm_num) (by simp)⟩

lemma margin15_pos (span : ℕ) : 1 ≤ margin15 span := le_max_left _ _

lemma margin15_cases (span : ℕ) :
    margin15 span = 1 ∨ (margin15 span : ℚ) ≤ (span : ℚ) * 0.15 := by
  unfold margin15
  rcases le_or_lt (⌊(span : ℚ) * 0.15⌋).toNat 1 with h | h
  · left; exact max_eq_left h
  · right
    rw [max_eq_right (le_of_lt h)]
    have hnn : (0 : ℤ) ≤ ⌊(span : ℚ) * 0.15⌋ := by
      apply Int.le_floor.mpr; positivity
    have heq : ((⌊(span : ℚ) * 0.15⌋.toNat : ℕ) : ℚ)
        = ((⌊(span : ℚ) * 0.15⌋ : ℤ) : ℚ) := by
      exact_mod_cast congrArg (fun n : ℤ => (n : ℚ)) (Int.toNat_of_nonneg hnn)
    rw [heq]
    exact Int.floor_le _

lemma three_margin15_le (span : ℕ) (h1 : 1 ≤ span) :
    3 * (margin15 span : ℚ) ≤ 4 * span := by
  rcases margin15_cases span with h | h
  · rw [h]
    have : (1 : ℚ) ≤ (span : ℚ) := by exact_mod_cast h1
    push_cast
    linarith
  · nlinarith [h, Nat.cast_nonneg (α := ℚ) span]

/-- The centre offset is `⌊span/2⌋` with or without trimming: the trimmed
formula `⌊(span - 2m)/2⌋ + m` collapses exactly. -/
lemma centerOffset_eq (span : ℕ) (excl : Bool) :
    centerOffset span excl = ⌊(span : ℚ) / 2⌋ := by
  cases excl with
  | false => rfl
  | true =>
    unfold centerOffset
    simp only [if_pos]
    rw [show ((span : ℚ) - 2 * (margin15 span : ℚ)) / 2
        = (span : ℚ) / 2 - (margin15 span : ℚ) from by ring]
    rw [show ((margin15 span : ℚ)) = ((margin15 span : ℤ) : ℚ) from by push_cast; ring]
    rw [Int.floor_sub_int]
    omega

lemma centerOffset_bounds (span : ℕ) (excl : Bool) (h1 : 1 ≤ span) :
    0 ≤ centerOffset span excl ∧ centerOffset span excl < span := by
  rw [centerOffset_eq]
  constructor
  · apply Int.le_floor.mpr; positivity
  · apply Int.floor_lt.mpr
    have : (1 : ℚ) ≤ (span : ℚ) := by exact_mod_cast h1
    push_cast
    linarith

lemma diagOffset_bounds (span : ℕ) (excl : Bool) (h1 : 1 ≤ span) :
    0 ≤ diagOffset span excl ∧ diagOffset span excl < span := by
  have hsp : (1 : ℚ) ≤ (span : ℚ) := by exact_mod_cast h1
  cases excl with
  | false =>
    unfold diagOffset
    constructor
    · apply Int.le_floor.mpr; positivity
    · apply Int.floor_lt.mpr; push_cast; linarith
  | true =>
    unfold diagOffset
    simp only [if_pos]
    have hm := three_margin15_le span h1
    constructor
    · have hfl : -(margin15 span : ℤ) ≤
          ⌊((span : ℚ) - 2 * (margin15 span : ℚ)) * 4 / 5⌋ := by
        apply Int.le_floor.mpr
        push_cast
        linarith
      omega
    · have hfl : ⌊((span : ℚ) - 2 * (margin15 span : ℚ)) * 4 / 5⌋ <
          (span : ℤ) - (margin15 span : ℤ) := by
        apply Int.floor_lt.mpr
        push_cast
        have hm1 : (1 : ℚ) ≤ (margin15 span : ℚ) := by
          exact_mod_cast margin15_pos span
        linarith
      omega

/-- **C4 (amended).** When the target grid fits inside the image
(`W ≤ iw`, per axis), every Quantizer block `[x0, x0 + span)` is fully
contained in `[0, iw)`, the `max(1, ·)` guard is inactive, and the
center/diagonal sampler offsets stay inside the block; the trimmed loop
bounds also stay inside the block.  (The original claim, with no `W ≤ iw`
restriction, is refuted by `cellBlock_escapes_unit_image`.) -/
theorem cellBlocks_contained_of_grid_le_image
    (iw W x span : ℕ) (x0 : ℤ) (excl : Bool)
    (hW : 1 ≤ W) (hfits : W ≤ iw) (hx : x < W) (hspan : 1 ≤ span) :
    (0 ≤ cellStart iw W x ∧
     cellSpan iw W x = cellStart iw W (x + 1) - cellStart iw W x ∧
     1 ≤ cellSpan iw W x ∧
     cellStart iw W x + cellSpan iw W x ≤ iw) ∧
    (0 ≤ centerOffset span excl ∧ centerOffset span excl < span ∧
     0 ≤ diagOffset span excl ∧ diagOffset span excl < span) ∧
    (x0 ≤ (trimBounds x0 span excl).1 ∧
     (trimBounds x0 span excl).2 ≤ x0 + span) := by
  have hW0 : (0 : ℚ) < (W : ℚ) := by exact_mod_cast lt_of_lt_of_le zero_lt_one hW
  have hs1 : (1 : ℚ) ≤ (iw : ℚ) / (W : ℚ) :=
    (one_le_div hW0).mpr (by exact_mod_cast hfits)
  have hs0 : (0 : ℚ) ≤ (iw : ℚ) / (W : ℚ) := le_trans zero_le_one hs1
  refine ⟨?_, ?_, ?_⟩
  · have h0 : 0 ≤ cellStart iw W x := by
      simp only [cellStart, jsRound]
      apply Int.le_floor.mpr
      positivity
    have hstep : cellStart iw W x + 1 ≤ cellStart iw W (x + 1) := by
      simp only [cellStart, jsRound]
      have hfl : ((⌊(x : ℚ) * ((iw : ℚ) / (W : ℚ)) + 1/2⌋ : ℤ) : ℚ) ≤
          (x : ℚ) * ((iw : ℚ) / (W : ℚ)) + 1/2 := Int.floor_le _
      apply Int.le_floor.mpr
      have hexp : ((x + 1 : ℕ) : ℚ) * ((iw : ℚ) / (W : ℚ))
          = (x : ℚ) * ((iw : ℚ) / (W : ℚ)) + (iw : ℚ) / (W : ℚ) := by
        push_cast; ring
      push_cast
      push_cast at hexp
      linarith
    have hup : cellStart iw W (x + 1) ≤ iw := by
      simp only [cellStart, jsRound]
      have hWs : (W : ℚ) * ((iw : ℚ) / (W : ℚ)) = (iw : ℚ) := by
        field_simp
      have hx1 : ((x + 1 : ℕ) : ℚ) ≤ (W : ℚ) := by exact_mod_cast hx
      have hle : ((x + 1 : ℕ) : ℚ) * ((iw : ℚ) / (W : ℚ)) ≤ (iw : ℚ) := by
        calc ((x + 1 : ℕ) : ℚ) * ((iw : ℚ) / (W : ℚ))
            ≤ (W : ℚ) * ((iw : ℚ) / (W : ℚ)) :=
              mul_le_mul_of_nonneg_right hx1 hs0
          _ = (iw : ℚ) := hWs
      have : ⌊((x + 1 : ℕ) : ℚ) * ((iw : ℚ) / (W : ℚ)) + 1/2⌋ < (iw : ℤ) + 1 := by
        apply Int.floor_lt.mpr
        push_cast
        push_cast at hle
        linarith
      omega
    have hspan' : cellSpan iw W x =
        cellStart iw W (x + 1) - cellStart iw W x := by
      unfold cellSpan
      exact max_eq_right (by omega)
    refine ⟨h0, hspan', by omega, by omega⟩
  · obtain ⟨hc0, hc1⟩ := centerOffset_bounds span excl hspan
    obtain ⟨hd0, hd1⟩ := diagOffset_bounds span excl hspan
    exact ⟨hc0, hc1, hd0, hd1⟩
  · cases excl with
    | false => simp [trimBounds]
    | true =>
      have := margin15_pos span
      constructor
      · simp only [trimBounds, if_pos]
        omega
      · simp only [trimBounds, if_pos]
        omega

/-- Witness for the amended C4 at a 4-pixel-wide image, `W = 2`, `x = 1`,
a 3-pixel span, trimming on. -/
theorem cellBlocks_contained_witness :
    ((1 : ℕ) ≤ 2 ∧ (2 : ℕ) ≤ 4 ∧ (1 : ℕ) < 2 ∧ (1 : ℕ) ≤ 3) ∧
    ((0 ≤ cellStart 4 2 1 ∧
      cellSpan 4 2 1 = cellStart 4 2 (1 + 1) - cellStart 4 2 1 ∧
      1 ≤ cellSpan 4 2 1 ∧
      cellStart 4 2 1 + cellSpan 4 2 1 ≤ 4) ∧
     (0 ≤ centerOffset 3 true ∧ centerOffset 3 true < 3 ∧
      0 ≤ diagOffset 3 true ∧ diagOffset 3 true < 3) ∧
     ((7 : ℤ) ≤ (trimBounds 7 3 true).1 ∧
      (trimBounds 7 3 true).2 ≤ (7 : ℤ) + 3)) :=
  ⟨⟨by norm_num, by norm_num, by norm_num, by norm_num⟩,
    cellBlocks_contained_of_grid_le_image 4 2 1 3 7 true
      (by norm_num) (by norm_num) (by norm_num) (by norm_num)⟩

/-- **C4 (counterexample).** On a 1×1 image with a 2×2 grid — allowed by
the claim, which only requires `iw, ih ≥ 1` and `W, H ≥ 2` — the last cell
starts at pixel 1 and its forced span `max(1, x1 - x0) = 1` makes the
block `[1, 2)`, which is not contained in the 1-pixel-wide image. -/
theorem cellBlock_escapes_unit_image :
    cellStart 1 2 1 = 1 ∧ cellSpan 1 2 1 = 1 ∧
    ¬(cellStart 1 2 1 + cellSpan 1 2 1 ≤ (1 : ℤ)) := by
  refine ⟨?_, ?_, ?_⟩ <;> norm_num [cellStart, cellSpan, jsRound]

lemma intRange_eq_nil {a b : ℤ} (h : b ≤ a) : intRange a b = [] := by
  simp [intRange, Int.toNat_of_nonpos (by omega : b - a ≤ 0)]

lemma blockCoords_nil_of_x {sx sy ex ey : ℤ} (h : ex ≤ sx) :
    blockCoords sx sy ex ey = [] := by
  simp [blockCoords, intRange_eq_nil h]

lemma blockCoords_nil_of_y {sx sy ex ey : ℤ} (h : ey ≤ sy) :
    blockCoords sx sy ex ey = [] := by
  simp [blockCoords, intRange_eq_nil h]

/-- **C10.** With edge trimming on, a block whose trimmed interior is
empty (the margins consume the whole span on either axis — in particular
any block of width ≤ 2 or height ≤ 2, as the last conjunct shows) makes
both the dominant and the average sampler return black `(0,0,0)`,
whatever the pixel data. -/
theorem trimmed_empty_block_black (data : List ℕ) (x0 y0 : ℤ)
    (w h imgW : ℕ) (hyp : w ≤ 2 * margin15 w ∨ h ≤ 2 * margin15 h) :
    getDominantColor data x0 y0 w h imgW true = (0, 0, 0) ∧
    getAverageColor data x0 y0 w h imgW true = (0, 0, 0) ∧
    (∀ s : ℕ, s ≤ 2 → s ≤ 2 * margin15 s) := by
  have hcoords : blockCoords (x0 + margin15 w) (y0 + margin15 h)
      (x0 + w - margin15 w) (y0 + h - margin15 h) = [] := by
    rcases hyp with hw | hh
    · apply blockCoords_nil_of_x
      have : (w : ℤ) ≤ 2 * (margin15 w : ℤ) := by exact_mod_cast hw
      omega
    · apply blockCoords_nil_of_y
      have : (h : ℤ) ≤ 2 * (margin15 h : ℤ) := by exact_mod_cast hh
      omega
  refine ⟨?_, ?_, ?_⟩
  · simp [getDominantColor, trimBounds, hcoords]
  · simp [getAverageColor, trimBounds, hcoords]
  · intro s hs
    have := margin15_pos s
    omega

/-- Witness for C10: a 2-pixel-wide, 5-pixel-high block over a concrete
image. -/
theorem trimmed_empty_block_black_witness :
    ((2 : ℕ) ≤ 2 * margin15 2 ∨ (5 : ℕ) ≤ 2 * margin15 5) ∧
    (getDominantColor [9, 9, 9, 255, 7, 7, 7, 255] 0 0 2 5 2 true = (0, 0, 0) ∧
     getAverageColor [9, 9, 9, 255, 7, 7, 7, 255] 0 0 2 5 2 true = (0, 0, 0) ∧
     (∀ s : ℕ, s ≤ 2 → s ≤ 2 * margin15 s)) :=
  ⟨Or.inl (by norm_num [margin15]),
    trimmed_empty_block_black _ 0 0 2 5 2 (Or.inl (by norm_num [margin15]))⟩

/-! ### Grid detection (gridDetectorV2.ts, gridDetector.ts) -/

/-- `GridParameters` from types.ts. -/
structure GridParameters where
  spacingX : ℚ
  spacingY : ℚ
  originX : ℚ
  originY : ℚ
  rows : ℤ
  cols : ℤ
  confidence : ℚ
deriving DecidableEq

/-- The autocorrelation sum at a given lag:
`for (i = 0; i < n - lag; i++) sum += signal[i] * signal[i + lag]`. -/
def autocorrSum (signal : List ℚ) (lag : ℕ) : ℚ :=
  ((List.range (signal.length - lag)).map
    (fun i => signal.getD i 0 * signal.getD (i + lag) 0)).sum

/-- The integer lags scanned by `findPeriodByAutocorrelation`:
`lag = minPeriod .. Math.min(maxPeriod, n/2)`. -/
def periodLags (signal : List ℚ) (minPeriod maxPeriod : ℕ) : List ℤ :=
  (intRange (minPeriod : ℤ) ((maxPeriod : ℤ) + 1)).filter
    (fun lag => decide ((lag : ℚ) ≤ (signal.length : ℚ) / 2))

/-- `GridDetectorV2.findPeriodByAutocorrelation`: the first lag whose
autocorrelation sum strictly exceeds the running best wins; `bestLag`
starts at the range midpoint `(minPeriod + maxPeriod)/2` and is returned
unchanged when no sum is positive. -/
def findPeriodByAutocorrelation (signal : List ℚ) (minPeriod maxPeriod : ℕ) : ℚ :=
  ((periodLags signal minPeriod maxPeriod).foldl
    (fun (st : ℚ × ℚ) (lag : ℤ) =>
      let sum := autocorrSum signal lag.toNat
      if sum > st.2 then ((lag : ℚ), sum) else st)
    (((minPeriod : ℚ) + (maxPeriod : ℚ)) / 2, 0)).1

/-- The column-sum projection of `GridDetectorV2.detectByProjection`
(grayscale, one byte per pixel, `data[y * cols + x] ?? 0`). -/
def colProjection (gray : Img) : List ℚ :=
  (List.range gray.width).map (fun x =>
    ((List.range gray.height).map
      (fun y => (gray.data.getD (y * gray.width + x) 0 : ℚ))).sum)

/-- The mean-subtracted projection signal. -/
def projSignal (gray : Img) : List ℚ :=
  let colProj := colProjection gray
  let mean := colProj.sum / gray.width
  colProj.map (fun v => v - mean)

/-- `GridDetectorV2.detectByProjection` (gridDetectorV2.ts lines 403–436):
the projection fallback.  Its return type has no failure case — it always
returns a `GridParameters`, with confidence fixed at 0.5. -/
def detectByProjection (gray : Img) : GridParameters :=
  let spacing := findPeriodByAutocorrelation (projSignal gray) 12 40
  { spacingX := spacing, spacingY := spacing,
    originX := spacing / 2, originY := spacing / 2,
    rows := ⌊((gray.height : ℚ) - spacing) / spacing⌋,
    cols := ⌊((gray.width : ℚ) - spacing) / spacing⌋,
    confidence := 1/2 }

/-- `autocorr[i] ?? 0` of gridDetector.ts as a total read. -/
def acAt (a : List ℚ) (i : ℤ) : ℚ := if 0 ≤ i then a.getD i.toNat 0 else 0

/-- A local maximum of the (normalized) autocorrelation at lag `l`. -/
def isPeakAt (a : List ℚ) (l : ℤ) : Prop :=
  acAt a (l - 1) < acAt a l ∧ acAt a (l + 1) < acAt a l

/-- A trough of the autocorrelation at lag `l`. -/
def isTroughAt (a : List ℚ) (l : ℤ) : Prop :=
  acAt a l < acAt a (l - 1) ∧ acAt a l < acAt a (l + 1)

instance (a : List ℚ) (l : ℤ) : Decidable (isPeakAt a l) := by
  unfold isPeakAt; infer_instance

instance (a : List ℚ) (l : ℤ) : Decidable (isTroughAt a l) := by
  unfold isTroughAt; infer_instance

/-- `GridDetector.findSpacingByGradient` (gridDetector.ts lines 176–205):
from the first trough in range, the next peak is returned; when no trough
or no peak follows, the range midpoint is the fallback.  (The sequential
scan of the source returns the peak found from the first trough; a later
trough scans a subrange, so this first-trough formulation is equivalent.) -/
def findSpacingByGradient (a : List ℚ) (minLag maxLag : ℕ) : ℚ :=
  let searchMax : ℤ := min (maxLag : ℤ) ((a.length : ℤ) - 2)
  match (intRange (minLag : ℤ) searchMax).find?
      (fun l => decide (isTroughAt a l)) with
  | none => ((minLag : ℚ) + (maxLag : ℚ)) / 2
  | some l =>
    match (intRange (l + 1) (searchMax + 1)).find?
        (fun l2 => decide (isPeakAt a l2)) with
    | some l2 => (l2 : ℚ)
    | none => ((minLag : ℚ) + (maxLag : ℚ)) / 2

/-- `GridDetector.findFirstPeak` (gridDetector.ts lines 143–171): global
maximum over the local maxima in range, defaulting to the midpoint
`(minLag + maxLag)/2`; below 0.1 the gradient fallback is used. -/
def findFirstPeak (a : List ℚ) (minLag maxLag : ℕ) : ℚ :=
  let searchMax : ℤ := min (maxLag : ℤ) ((a.length : ℤ) - 2)
  let best := (intRange (minLag : ℤ) (searchMax + 1)).foldl
    (fun (st : ℚ × ℚ) lag =>
      if isPeakAt a lag ∧ acAt a lag > st.2 then ((lag : ℚ), acAt a lag) else st)
    (((minLag : ℚ) + (maxLag : ℚ)) / 2, 0)
  if best.2 < 0.1 then findSpacingByGradient a minLag maxLag else best.1

/-- When no autocorrelation sum in range is positive, the period scan
keeps its initial state. -/
lemma findPeriod_no_positive (signal : List ℚ) (minP maxP : ℕ)
    (h : ∀ lag ∈ periodLags signal minP maxP, autocorrSum signal lag.toNat ≤ 0) :
    findPeriodByAutocorrelation signal minP maxP =
      ((minP : ℚ) + (maxP : ℚ)) / 2 := by
  unfold findPeriodByAutocorrelation
  have key : ∀ (l : List ℤ),
      (∀ lag ∈ l, autocorrSum signal lag.toNat ≤ 0) →
      l.foldl (fun (st : ℚ × ℚ) (lag : ℤ) =>
        let sum := autocorrSum signal lag.toNat
        if sum > st.2 then ((lag : ℚ), sum) else st)
        (((minP : ℚ) + (maxP : ℚ)) / 2, 0) =
        (((minP : ℚ) + (maxP : ℚ)) / 2, 0) := by
    intro l
    induction l with
    | nil => intro _; rfl
    | cons x t ih =>
      intro hall
      have hx := hall x (List.mem_cons_self _ _)
      have hnot : ¬ (autocorrSum signal x.toNat > (0 : ℚ)) := not_lt.mpr hx
      simp only [List.foldl_cons, hnot, if_false, if_neg hnot]
      exact ih (fun lag hl => hall lag (List.mem_cons_of_mem _ hl))
  rw [key _ h]

/-- When no lag in range is a local maximum, the peak scan keeps its
initial state and falls through to the gradient method. -/
lemma findFirstPeak_no_peak (a : List ℚ) (minLag maxLag : ℕ)
    (hpeak : ∀ l ∈ intRange (minLag : ℤ)
      ((min (maxLag : ℤ) ((a.length : ℤ) - 2)) + 1), ¬ isPeakAt a l)
    (htrough : ∀ l ∈ intRange (minLag : ℤ)
      (min (maxLag : ℤ) ((a.length : ℤ) - 2)), ¬ isTroughAt a l) :
    findFirstPeak a minLag maxLag = ((minLag : ℚ) + (maxLag : ℚ)) / 2 := by
  simp only [findFirstPeak]
  have key : ∀ (l : List ℤ), (∀ x ∈ l, ¬ isPeakAt a x) →
      l.foldl (fun (st : ℚ × ℚ) lag =>
        if isPeakAt a lag ∧ acAt a lag > st.2 then ((lag : ℚ), acAt a lag) else st)
        (((minLag : ℚ) + (maxLag : ℚ)) / 2, 0) =
        (((minLag : ℚ) + (maxLag : ℚ)) / 2, 0) := by
    intro l
    induction l with
    | nil => intro _; rfl
    | cons x t ih =>
      intro hall
      have hx := hall x (List.mem_cons_self _ _)
      have hnot : ¬ (isPeakAt a x ∧ acAt a x > (0 : ℚ)) := fun hc => hx hc.1
      simp only [List.foldl_cons, if_neg hnot]
      exact ih (fun y hy => hall y (List.mem_cons_of_mem _ hy))
  rw [key _ hpeak]
  simp only
  rw [if_pos (by norm_num)]
  simp only [findSpacingByGradient]
  have hfind : (intRange (minLag : ℤ)
      (min (maxLag : ℤ) ((a.length : ℤ) - 2))).find?
      (fun l => decide (isTroughAt a l)) = none := by
    apply List.find?_eq_none.mpr
    intro x hx
    simpa using htrough x hx
  rw [hfind]

/-- **C3 (amended).** Neither grid-detection method ever fails: there is
no `GridNotFound` error in the code.  When the projection
autocorrelation has no positive value at any lag in `[12, 40]`,
`GridDetectorV2.detectByProjection` silently returns a grid derived from
the *default* pitch `(12+40)/2 = 26` with confidence 0.5; likewise
`GridDetector.findFirstPeak` returns the range midpoint
`(minLag+maxLag)/2` when it finds neither a local maximum nor a
trough-to-peak pattern. -/
theorem gridDetection_defaults_instead_of_failing (gray : Img)
    (a : List ℚ) (minLag maxLag : ℕ)
    (hflat : ∀ lag ∈ periodLags (projSignal gray) 12 40,
      autocorrSum (projSignal gray) lag.toNat ≤ 0)
    (hpeak : ∀ l ∈ intRange (minLag : ℤ)
      ((min (maxLag : ℤ) ((a.length : ℤ) - 2)) + 1), ¬ isPeakAt a l)
    (htrough : ∀ l ∈ intRange (minLag : ℤ)
      (min (maxLag : ℤ) ((a.length : ℤ) - 2)), ¬ isTroughAt a l) :
    detectByProjection gray =
      { spacingX := 26, spacingY := 26, originX := 13, originY := 13,
        rows := ⌊((gray.height : ℚ) - 26) / 26⌋,
        cols := ⌊((gray.width : ℚ) - 26) / 26⌋,
        confidence := 1/2 } ∧
    findFirstPeak a minLag maxLag = ((minLag : ℚ) + (maxLag : ℚ)) / 2 := by
  constructor
  · unfold detectByProjection
    rw [findPeriod_no_positive _ _ _ hflat]
    norm_num
  · exact findFirstPeak_no_peak a minLag maxLag hpeak htrough

lemma getD_replicate_of_lt {α : Type} (n i : ℕ) (c d : α) (h : i < n) :
    (List.replicate n c).getD i d = c := by
  induction n generalizing i with
  | zero => omega
  | succ m ih =>
    cases i with
    | zero => rfl
    | succ j => exact ih j (by omega)

lemma getD_replicate_zero (n i : ℕ) :
    (List.replicate n (0 : ℚ)).getD i 0 = 0 := by
  induction n generalizing i with
  | zero => rfl
  | succ m ih =>
    cases i with
    | zero => rfl
    | succ j => exact ih j

lemma autocorrSum_replicate_zero (n lag : ℕ) :
    autocorrSum (List.replicate n 0) lag = 0 := by
  unfold autocorrSum
  have hz : ∀ i : ℕ, (List.replicate n (0 : ℚ)).getD i 0 = 0 :=
    fun i => getD_replicate_zero n i
  simp [hz]

/-- The flat 52×1 test image. -/
def flatImg : Img := Img.mk 52 1 (List.replicate 52 7)

lemma projSignal_flatImg : projSignal flatImg = List.replicate 52 0 := by
  have hcol : colProjection flatImg = List.replicate 52 (7 : ℚ) := by
    unfold colProjection flatImg
    apply List.eq_replicate.mpr
    refine ⟨by simp, ?_⟩
    intro b hb
    simp only [List.mem_map, List.mem_range] at hb
    obtain ⟨x, hx, rfl⟩ := hb
    have hr1 : List.range 1 = [0] := by decide
    simp only [hr1, List.map_cons, List.map_nil, List.sum_cons,
      List.sum_nil, Nat.zero_mul, Nat.zero_add]
    rw [getD_replicate_of_lt 52 x (7 : ℕ) 0 hx]
    norm_num
  have hsum : (List.replicate 52 (7 : ℚ)).sum = 364 := by
    rw [List.sum_replicate]
    norm_num
  unfold projSignal
  rw [hcol]
  show (List.replicate 52 (7 : ℚ)).map
      (fun v => v - (List.replicate 52 (7 : ℚ)).sum / (flatImg.width : ℚ))
      = List.replicate 52 0
  simp only [hsum, List.map_replicate, flatImg]
  norm_num

lemma flatImg_no_positive_lag :
    ∀ lag ∈ periodLags (projSignal flatImg) 12 40,
      autocorrSum (projSignal flatImg) lag.toNat ≤ 0 := by
  intro lag _
  rw [projSignal_flatImg, autocorrSum_replicate_zero]

/-- Witness for the amended C3: a flat 52×1 grayscale image (value 7
everywhere) and a too-short flat autocorrelation. -/
theorem gridDetection_defaults_witness :
    ((∀ lag ∈ periodLags (projSignal flatImg) 12 40,
      autocorrSum (projSignal flatImg) lag.toNat ≤ 0) ∧
     (∀ l ∈ intRange (((12 : ℕ)) : ℤ)
      ((min (((50 : ℕ)) : ℤ) ((([1, 1, 1, 1] : List ℚ).length : ℤ) - 2)) + 1),
      ¬ isPeakAt [1, 1, 1, 1] l) ∧
     (∀ l ∈ intRange (((12 : ℕ)) : ℤ)
      (min (((50 : ℕ)) : ℤ) ((([1, 1, 1, 1] : List ℚ).length : ℤ) - 2)),
      ¬ isTroughAt [1, 1, 1, 1] l)) ∧
    (detectByProjection flatImg =
      { spacingX := 26, spacingY := 26, originX := 13, originY := 13,
        rows := ⌊((flatImg.height : ℚ) - 26) / 26⌋,
        cols := ⌊((flatImg.width : ℚ) - 26) / 26⌋,
        confidence := 1/2 } ∧
     findFirstPeak [1, 1, 1, 1] 12 50 = ((12 : ℚ) + (50 : ℚ)) / 2) := by
  have hrange1 : intRange (((12 : ℕ)) : ℤ)
      ((min (((50 : ℕ)) : ℤ) ((([1, 1, 1, 1] : List ℚ).length : ℤ) - 2)) + 1) = [] := by
    apply intRange_eq_nil
    simp
  have hrange2 : intRange (((12 : ℕ)) : ℤ)
      (min (((50 : ℕ)) : ℤ) ((([1, 1, 1, 1] : List ℚ).length : ℤ) - 2)) = [] := by
    apply intRange_eq_nil
    simp
  refine ⟨⟨flatImg_no_positive_lag, ?_, ?_⟩, ?_⟩
  · intro l hl; rw [hrange1] at hl; simp at hl
  · intro l hl; rw [hrange2] at hl; simp at hl
  · exact gridDetection_defaults_instead_of_failing flatImg [1, 1, 1, 1] 12 50
      flatImg_no_positive_lag
      (by intro l hl; rw [hrange1] at hl; simp at hl)
      (by intro l hl; rw [hrange2] at hl; simp at hl)

/-- **C3 (counterexample).** On a concrete flat 52×1 image no lag in the
search range has positive autocorrelation — no pitch is "found" — yet
`detectByProjection` returns normally (there is no `GridNotFound` in the
code, and its return type has no failure case): a grid with the default
pitch 26, confidence 0.5, and dimensions `rows = -1`, `cols = 1` derived
from that default pitch. -/
theorem detectByProjection_flat_no_failure :
    (∀ lag ∈ periodLags (projSignal flatImg) 12 40,
      autocorrSum (projSignal flatImg) lag.toNat ≤ 0) ∧
    detectByProjection flatImg =
      { spacingX := 26, spacingY := 26, originX := 13, originY := 13,
        rows := -1, cols := 1, confidence := 1/2 } := by
  refine ⟨flatImg_no_positive_lag, ?_⟩
  unfold detectByProjection
  rw [findPeriod_no_positive _ _ _ flatImg_no_positive_lag]
  have h1 : ⌊((flatImg.height : ℚ) - (12 + 40) / 2) / ((12 + 40) / 2)⌋ = (-1 : ℤ) := by
    norm_num [flatImg]
  have h2 : ⌊((flatImg.width : ℚ) - (12 + 40) / 2) / ((12 + 40) / 2)⌋ = (1 : ℤ) := by
    norm_num [flatImg]
  simp only [flatImg] at h1 h2 ⊢
  norm_num [h1, h2]

/-! ### Cell analyzer (gridAnalyzerV2.ts) -/

/-- A cell together with its extracted features (the `CellAnalysis &
features` records built by `GridAnalyzerV2.analyzeGrid`); all features
are exact rationals of the pixel sums. -/
structure RawCell where
  row : ℤ
  col : ℤ
  centerX : ℚ
  centerY : ℚ
  centerMean : ℚ
  ringMean : ℚ
  contrast : ℚ
  saturation : ℚ
  edgeDensity : ℚ
deriving DecidableEq

/-- `CellAnalysis` from types.ts (confidence is a real: it divides by the
`max`/`sqrt`-derived effective threshold). -/
structure CellAnalysis where
  row : ℤ
  col : ℤ
  centerX : ℚ
  centerY : ℚ
  isOccupied : Bool
  confidence : ℝ
  centerMean : ℚ
  ringMean : ℚ
  contrast : ℚ

/-- `GridAnalyzerV2.findOtsuThreshold` (gridAnalyzerV2.ts lines 245–292):
50-bin Otsu scan with first-maximum tie-breaking, `(min+max)/2` when the
range is narrower than 1, 0 on an empty population. -/
def findOtsuThreshold (values : List ℚ) : ℚ :=
  match values with
  | [] => 0
  | v :: vs =>
    let mn := vs.foldl min v
    let mx := vs.foldl max v
    if mx - mn < 1 then (mn + mx) / 2
    else
      let bins : ℕ := 50
      let binOf : ℚ → ℕ := fun x =>
        min (bins - 1) ((⌊(x - mn) / (mx - mn) * bins⌋).toNat)
      let hist : List ℕ := (List.range bins).map
        (fun b => ((v :: vs).filter (fun x => binOf x = b)).length)
      let center : ℕ → ℚ := fun i => mn + ((i : ℚ) + 0.5) * (mx - mn) / bins
      let total : ℕ := (v :: vs).length
      let sum := ((List.range bins).map
        (fun i => center i * (hist.getD i 0 : ℚ))).sum
      -- state: (bestThreshold, maxVariance, sumB, wB, done); `continue`
      -- when wB = 0, `break` (done) when wF = 0
      let final := (List.range bins).foldl
        (fun (st : ℚ × ℚ × ℚ × ℕ × Bool) i =>
          if st.2.2.2.2 then st
          else
            let wB := st.2.2.2.1 + hist.getD i 0
            if wB = 0 then (st.1, st.2.1, st.2.2.1, wB, false)
            else if total - wB = 0 then (st.1, st.2.1, st.2.2.1, wB, true)
            else
              let sumB := st.2.2.1 + center i * (hist.getD i 0 : ℚ)
              let mB := sumB / (wB : ℚ)
              let mF := (sum - sumB) / ((total - wB : ℕ) : ℚ)
              let variance := (wB : ℚ) * ((total - wB : ℕ) : ℚ)
                * (mB - mF) * (mB - mF)
              if variance > st.2.1 then
                (mn + ((i : ℚ) + 1) * (mx - mn) / bins, variance, sumB, wB, false)
              else (st.1, st.2.1, sumB, wB, false))
        ((mn + mx) / 2, 0, 0, 0, false)
      final.1

/-- The `||`-fallback `findOtsuThreshold(values) || default` (falsy = 0). -/
def otsuOr (dflt : ℚ) (values : List ℚ) : ℚ :=
  if findOtsuThreshold values = 0 then dflt else findOtsuThreshold values

/-- The population standard deviation
`sqrt(Σ (c - avg)² / n)` computed by `classifyWithAdaptiveThreshold`. -/
noncomputable def stdOf (values : List ℚ) : ℝ :=
  Real.sqrt (((values.map
    (fun c => (c - values.sum / values.length) ^ 2)).sum / values.length : ℚ))

/-- `effectiveContrastThreshold = Math.max(contrastThreshold,
avgContrast + contrastStd * 0.5)` with `contrastThreshold =
otsu || default`. -/
noncomputable def effectiveContrastThreshold (dflt : ℚ)
    (contrasts : List ℚ) : ℝ :=
  max ((otsuOr dflt contrasts : ℚ) : ℝ)
    (((contrasts.sum / contrasts.length : ℚ) : ℝ) + stdOf contrasts * 0.5)

open Classical in
/-- `GridAnalyzerV2.classifyWithAdaptiveThreshold` (gridAnalyzerV2.ts
lines 178–240).  Note: the saturation threshold is only
`findOtsuThreshold(saturations) || default` — no mean/std adjustment —
and the reported confidence is the fused score for occupied and empty
cells alike. -/
noncomputable def classifyWithAdaptiveThreshold (contrastDefault satDefault : ℚ)
    (cells : List RawCell) : List CellAnalysis :=
  if cells.length = 0 then [] else
  let satThreshold := otsuOr satDefault (cells.map (fun c => c.saturation))
  let eff := effectiveContrastThreshold contrastDefault
    (cells.map (fun c => c.contrast))
  cells.map (fun cell =>
    let contrastScore : ℝ := max 0 (min 1 ((cell.contrast : ℝ) / (eff * 1.5)))
    let satScore : ℝ := max 0 (min 1
      ((cell.saturation : ℝ) / ((satThreshold : ℝ) * 1.5)))
    let edgeScore : ℝ := min 1 ((cell.edgeDensity : ℝ) * 8)
    let score := contrastScore * 0.6 + satScore * 0.25 + edgeScore * 0.15
    { row := cell.row, col := cell.col,
      centerX := cell.centerX, centerY := cell.centerY,
      isOccupied := if ((cell.contrast : ℝ) > eff ∨
          ((cell.contrast : ℝ) > eff * 0.6 ∧
           cell.saturation > satThreshold * 0.8)) then true else false,
      confidence := score,
      centerMean := cell.centerMean, ringMean := cell.ringMean,
      contrast := cell.contrast })

/-- Spec-side definition, following the spec's words (§4.F step 1), for
comparison with the source: the effective threshold of a population is
`max(t, μ + 0.5·σ)` with `t` Otsu's threshold — applied, per the spec,
to contrasts *and* saturations alike. -/
noncomputable def specEffectiveThreshold (values : List ℚ) : ℝ :=
  max ((findOtsuThreshold values : ℚ) : ℝ)
    (((values.sum / values.length : ℚ) : ℝ) + stdOf values * 0.5)

/-- Spec-side definition, following the spec's words (§4.F step 2): a
cell is occupied when `contrast > T_c` or
(`contrast > 0.6·T_c` and `saturation > 0.8·T_s`). -/
noncomputable def specOccupied (cells : List RawCell) (cell : RawCell) : Prop :=
  (cell.contrast : ℝ) > specEffectiveThreshold (cells.map (fun c => c.contrast)) ∨
  ((cell.contrast : ℝ) >
      specEffectiveThreshold (cells.map (fun c => c.contrast)) * 0.6 ∧
   (cell.saturation : ℝ) >
      specEffectiveThreshold (cells.map (fun c => c.saturation)) * 0.8)

/-- **C5 (amended).** The effective contrast threshold is
`max(t_c or default when Otsu yields 0, μ_c + 0.5·σ_c)`, but the
effective saturation threshold is only `t_s = Otsu(saturations)` (or the
default when 0) — the mean/std adjustment is *not* applied to
saturations; a cell is occupied exactly when `contrast > T_c` or
(`contrast > 0.6·T_c` and `saturation > 0.8·t_s`). -/
theorem classify_occupied_rule (cD sD : ℚ) (cells : List RawCell)
    (hne : ¬ cells.length = 0) (i : ℕ) (cell : RawCell)
    (hcell : cells.get? i = some cell) :
    ∃ out, (classifyWithAdaptiveThreshold cD sD cells).get? i = some out ∧
      (out.isOccupied = true ↔
        ((cell.contrast : ℝ) >
            effectiveContrastThreshold cD (cells.map (fun c => c.contrast)) ∨
         ((cell.contrast : ℝ) >
            effectiveContrastThreshold cD (cells.map (fun c => c.contrast)) * 0.6 ∧
          cell.saturation >
            otsuOr sD (cells.map (fun c => c.saturation)) * 0.8))) := by
  unfold classifyWithAdaptiveThreshold
  rw [if_neg hne]
  simp only [List.get?_map, hcell, Option.map_some']
  refine ⟨_, rfl, ?_⟩
  simp only
  by_cases hP : ((cell.contrast : ℝ) >
      effectiveContrastThreshold cD (cells.map (fun c => c.contrast)) ∨
    ((cell.contrast : ℝ) >
      effectiveContrastThreshold cD (cells.map (fun c => c.contrast)) * 0.6 ∧
     cell.saturation > otsuOr sD (cells.map (fun c => c.saturation)) * 0.8))
  · simp [hP]
  · simp [hP]

/-- The concrete cells refuting C5/C6: equal contrasts with a small
saturation spread keep Otsu in its `(min+max)/2` branch. -/
def c5a : RawCell := ⟨0, 0, 0, 0, 0, 0, 10, 29/20, 0⟩

def c5b : RawCell := ⟨0, 1, 0, 0, 0, 0, 10, 2, 0⟩

def c5cells : List RawCell := [c5a, c5b]

lemma otsu_1010 : findOtsuThreshold [10, 10] = 10 := by
  simp only [findOtsuThreshold, List.foldl_cons, List.foldl_nil,
    min_self, max_self]
  norm_num

lemma otsu_sat5 : findOtsuThreshold [29/20, 2] = 69/40 := by
  simp only [findOtsuThreshold, List.foldl_cons, List.foldl_nil,
    min_eq_left (by norm_num : (29/20 : ℚ) ≤ 2),
    max_eq_right (by norm_num : (29/20 : ℚ) ≤ 2)]
  rw [if_pos (by norm_num : (2 : ℚ) - 29/20 < 1)]
  norm_num

lemma stdOf_1010 : stdOf [10, 10] = 0 := by
  unfold stdOf
  rw [show ((([10, 10] : List ℚ).map
      (fun c => (c - ([10, 10] : List ℚ).sum / (([10, 10] : List ℚ).length : ℚ))
        ^ 2)).sum / (([10, 10] : List ℚ).length : ℚ)) = (0 : ℚ) from by
    norm_num]
  simp

lemma stdOf_sat5 : stdOf [29/20, 2] = 11/40 := by
  unfold stdOf
  rw [show ((([29/20, 2] : List ℚ).map
      (fun c => (c - ([29/20, 2] : List ℚ).sum /
        (([29/20, 2] : List ℚ).length : ℚ)) ^ 2)).sum /
      (([29/20, 2] : List ℚ).length : ℚ)) = (121/1600 : ℚ) from by
    norm_num]
  rw [show (((121/1600 : ℚ) : ℝ)) = (11/40 : ℝ) ^ 2 from by norm_num]
  exact Real.sqrt_sq (by norm_num)

lemma eff_c5 : effectiveContrastThreshold 6 [10, 10] = 10 := by
  unfold effectiveContrastThreshold otsuOr
  rw [otsu_1010, stdOf_1010]
  norm_num

lemma satT_c5 : otsuOr 30 [29/20, 2] = 69/40 := by
  unfold otsuOr
  rw [otsu_sat5]
  norm_num

lemma spec_sat_c5 : specEffectiveThreshold [29/20, 2] = 149/80 := by
  unfold specEffectiveThreshold
  rw [otsu_sat5, stdOf_sat5]
  rw [show (([29/20, 2] : List ℚ).sum / (([29/20, 2] : List ℚ).length : ℚ))
      = (69/40 : ℚ) from by norm_num]
  rw [max_eq_right (by push_cast; norm_num : ((69/40 : ℚ) : ℝ) ≤
    ((69/40 : ℚ) : ℝ) + (11/40 : ℝ) * 0.5)]
  push_cast
  norm_num

lemma spec_con_c5 : specEffectiveThreshold [10, 10] = 10 := by
  unfold specEffectiveThreshold
  rw [otsu_1010, stdOf_1010]
  norm_num

lemma c5_maps : c5cells.map (fun c => c.contrast) = [10, 10] ∧
    c5cells.map (fun c => c.saturation) = [29/20, 2] := by
  constructor <;> rfl

/-- **C5 (counterexample).** On the two-cell population
`{(contrast 10, sat 1.45), (contrast 10, sat 2)}` the code classifies the
first cell occupied (its saturation 1.45 exceeds `0.8·t_s = 1.38`), while
the claim's rule — with `T_s = max(t_s, μ_s + 0.5·σ_s) = 1.8625`, so
`0.8·T_s = 1.49` — classifies it empty. -/
theorem classify_sat_threshold_not_spec :
    (∃ out, (classifyWithAdaptiveThreshold 6 30 c5cells).get? 0 = some out ∧
      out.isOccupied = true) ∧
    ¬ specOccupied c5cells c5a := by
  have heff : effectiveContrastThreshold 6
      (c5cells.map (fun c => c.contrast)) = 10 := by
    rw [c5_maps.1]; exact eff_c5
  have hsatT : otsuOr 30 (c5cells.map (fun c => c.saturation)) = 69/40 := by
    rw [c5_maps.2]; exact satT_c5
  constructor
  · unfold classifyWithAdaptiveThreshold
    rw [if_neg (by simp [c5cells])]
    simp only [List.get?_map]
    rw [show c5cells.get? 0 = some c5a from rfl]
    simp only [Option.map_some']
    refine ⟨_, rfl, ?_⟩
    simp only
    rw [if_pos]
    rw [heff, hsatT]
    right
    constructor
    · show ((c5a.contrast : ℚ) : ℝ) > (10 : ℝ) * 0.6
      norm_num [c5a]
    · show c5a.saturation > (69/40 : ℚ) * 0.8
      norm_num [c5a]
  · unfold specOccupied
    rw [c5_maps.1, c5_maps.2, spec_con_c5, spec_sat_c5]
    push_neg
    constructor
    · norm_num [c5a]
    · intro _
      show ((c5a.saturation : ℚ) : ℝ) ≤ (149/80 : ℝ) * 0.8
      norm_num [c5a]

/-- Witness for the amended C5 at the concrete two-cell population. -/
theorem classify_occupied_rule_witness :
    (¬ c5cells.length = 0 ∧ c5cells.get? 0 = some c5a) ∧
    (∃ out, (classifyWithAdaptiveThreshold 6 30 c5cells).get? 0 = some out ∧
      (out.isOccupied = true ↔
        ((c5a.contrast : ℝ) >
            effectiveContrastThreshold 6 (c5cells.map (fun c => c.contrast)) ∨
         ((c5a.contrast : ℝ) >
            effectiveContrastThreshold 6 (c5cells.map (fun c => c.contrast)) * 0.6 ∧
          c5a.saturation >
            otsuOr 30 (c5cells.map (fun c => c.saturation)) * 0.8)))) :=
  ⟨⟨by simp [c5cells], rfl⟩,
    classify_occupied_rule 6 30 c5cells (by simp [c5cells]) 0 c5a rfl⟩

/-- **C6 (amended).** The confidence reported by
`classifyWithAdaptiveThreshold` equals the fused score
`0.6·clamp(contrast/(1.5·T_c)) + 0.25·clamp(sat/(1.5·t_s)) +
0.15·min(1, 8·edge_density)` for *every* cell, occupied or empty — the
`1 − score` branch of the claim does not exist in the code. -/
theorem classify_confidence_is_score (cD sD : ℚ) (cells : List RawCell)
    (hne : ¬ cells.length = 0) (i : ℕ) (cell : RawCell)
    (hcell : cells.get? i = some cell) :
    ∃ out, (classifyWithAdaptiveThreshold cD sD cells).get? i = some out ∧
      out.confidence =
        max 0 (min 1 ((cell.contrast : ℝ) /
          (effectiveContrastThreshold cD (cells.map (fun c => c.contrast)) * 1.5)))
          * 0.6
        + max 0 (min 1 ((cell.saturation : ℝ) /
          ((otsuOr sD (cells.map (fun c => c.saturation)) : ℚ) * 1.5))) * 0.25
        + min 1 ((cell.edgeDensity : ℝ) * 8) * 0.15 := by
  unfold classifyWithAdaptiveThreshold
  rw [if_neg hne]
  simp only [List.get?_map, hcell, Option.map_some']
  exact ⟨_, rfl, rfl⟩

def c6a : RawCell := ⟨0, 0, 0, 0, 0, 0, 10, 0, 0⟩

def c6b : RawCell := ⟨0, 1, 0, 0, 0, 0, 21/2, 0, 0⟩

def c6cells : List RawCell := [c6a, c6b]

lemma otsu_c6 : findOtsuThreshold [10, 21/2] = 41/4 := by
  simp only [findOtsuThreshold, List.foldl_cons, List.foldl_nil,
    min_eq_left (by norm_num : (10 : ℚ) ≤ 21/2),
    max_eq_right (by norm_num : (10 : ℚ) ≤ 21/2)]
  rw [if_pos (by norm_num : (21/2 : ℚ) - 10 < 1)]
  norm_num

lemma otsu_zz : findOtsuThreshold [0, 0] = 0 := by
  simp only [findOtsuThreshold, List.foldl_cons, List.foldl_nil,
    min_self, max_self]
  norm_num

lemma stdOf_c6 : stdOf [10, 21/2] = 1/4 := by
  unfold stdOf
  rw [show ((([10, 21/2] : List ℚ).map
      (fun c => (c - ([10, 21/2] : List ℚ).sum /
        (([10, 21/2] : List ℚ).length : ℚ)) ^ 2)).sum /
      (([10, 21/2] : List ℚ).length : ℚ)) = (1/16 : ℚ) from by
    norm_num]
  rw [show (((1/16 : ℚ) : ℝ)) = (1/4 : ℝ) ^ 2 from by norm_num]
  exact Real.sqrt_sq (by norm_num)

lemma eff_c6 : effectiveContrastThreshold 6 [10, 21/2] = 83/8 := by
  unfold effectiveContrastThreshold otsuOr
  rw [otsu_c6, stdOf_c6]
  rw [max_eq_right (by push_cast; norm_num : ((if (41/4 : ℚ) = 0 then (6 : ℚ)
    else 41/4) : ℚ) ≤ ((([10, 21/2] : List ℚ).sum /
      (([10, 21/2] : List ℚ).length : ℚ) : ℚ) : ℝ) + (1/4 : ℝ) * 0.5)]
  push_cast
  norm_num

lemma c6_maps : c6cells.map (fun c => c.contrast) = [10, 21/2] ∧
    c6cells.map (fun c => c.saturation) = [0, 0] := by
  constructor <;> rfl

/-- **C6 (counterexample).** On the population
`{(contrast 10), (contrast 10.5)}` (saturations and edges zero) the first
cell is classified empty with fused score `32/83 ≈ 0.386`; the code
reports confidence `32/83`, not the claim's `max(0, 1 - score) = 51/83`. -/
theorem classify_confidence_not_one_minus_score :
    ∃ out, (classifyWithAdaptiveThreshold 6 30 c6cells).get? 0 = some out ∧
      out.isOccupied = false ∧ out.confidence = 32/83 ∧
      ¬ out.confidence = max 0 (1 - (32/83 : ℝ)) := by
  have heff : effectiveContrastThreshold 6
      (c6cells.map (fun c => c.contrast)) = 83/8 := by
    rw [c6_maps.1]; exact eff_c6
  have hsatT : otsuOr 30 (c6cells.map (fun c => c.saturation)) = 30 := by
    rw [c6_maps.2]
    unfold otsuOr
    rw [otsu_zz]
    norm_num
  unfold classifyWithAdaptiveThreshold
  rw [if_neg (by simp [c6cells])]
  simp only [List.get?_map]
  rw [show c6cells.get? 0 = some c6a from rfl]
  simp only [Option.map_some']
  refine ⟨_, rfl, ?_, ?_, ?_⟩
  · simp only
    rw [if_neg]
    rw [heff, hsatT]
    push_neg
    constructor
    · show ((c6a.contrast : ℚ) : ℝ) ≤ ((83/8 : ℝ))
      norm_num [c6a]
    · intro _
      show c6a.saturation ≤ (30 : ℚ) * 0.8
      norm_num [c6a]
  · simp only
    rw [heff, hsatT]
    have h1 : max (0 : ℝ) (min 1 ((c6a.contrast : ℝ) / ((83/8 : ℝ) * 1.5)))
        = 160/249 := by
      rw [show ((c6a.contrast : ℝ) / ((83/8 : ℝ) * 1.5)) = (160/249 : ℝ) from by
        norm_num [c6a]]
      rw [min_eq_right (by norm_num : (160/249 : ℝ) ≤ 1)]
      rw [max_eq_right (by norm_num : (0 : ℝ) ≤ 160/249)]
    have h2 : max (0 : ℝ) (min 1 ((c6a.saturation : ℝ) / (((30 : ℚ) : ℝ) * 1.5)))
        = 0 := by
      rw [show ((c6a.saturation : ℝ) / (((30 : ℚ) : ℝ) * 1.5)) = (0 : ℝ) from by
        norm_num [c6a]]
      norm_num
    have h3 : min (1 : ℝ) ((c6a.edgeDensity : ℝ) * 8) = 0 := by
      rw [show ((c6a.edgeDensity : ℝ) * 8) = (0 : ℝ) from by norm_num [c6a]]
      norm_num
    rw [h1, h2, h3]
    norm_num
  · simp only
    rw [heff, hsatT]
    have h1 : max (0 : ℝ) (min 1 ((c6a.contrast : ℝ) / ((83/8 : ℝ) * 1.5)))
        = 160/249 := by
      rw [show ((c6a.contrast : ℝ) / ((83/8 : ℝ) * 1.5)) = (160/249 : ℝ) from by
        norm_num [c6a]]
      rw [min_eq_right (by norm_num : (160/249 : ℝ) ≤ 1)]
      rw [max_eq_right (by norm_num : (0 : ℝ) ≤ 160/249)]
    have h2 : max (0 : ℝ) (min 1 ((c6a.saturation : ℝ) / (((30 : ℚ) : ℝ) * 1.5)))
        = 0 := by
      rw [show ((c6a.saturation : ℝ) / (((30 : ℚ) : ℝ) * 1.5)) = (0 : ℝ) from by
        norm_num [c6a]]
      norm_num
    have h3 : min (1 : ℝ) ((c6a.edgeDensity : ℝ) * 8) = 0 := by
      rw [show ((c6a.edgeDensity : ℝ) * 8) = (0 : ℝ) from by norm_num [c6a]]
      norm_num
    rw [h1, h2, h3]
    rw [max_eq_right (by norm_num : (0 : ℝ) ≤ 1 - 32/83)]
    norm_num

/-- Witness for the amended C6 at the concrete two-cell population. -/
theorem classify_confidence_is_score_witness :
    (¬ c6cells.length = 0 ∧ c6cells.get? 0 = some c6a) ∧
    (∃ out, (classifyWithAdaptiveThreshold 6 30 c6cells).get? 0 = some out ∧
      out.confidence =
        max 0 (min 1 ((c6a.contrast : ℝ) /
          (effectiveContrastThreshold 6 (c6cells.map (fun c => c.contrast)) * 1.5)))
          * 0.6
        + max 0 (min 1 ((c6a.saturation : ℝ) /
          ((otsuOr 30 (c6cells.map (fun c => c.saturation)) : ℚ) * 1.5))) * 0.25
        + min 1 ((c6a.edgeDensity : ℝ) * 8) * 0.15) :=
  ⟨⟨by simp [c6cells], rfl⟩,
    classify_confidence_is_score 6 30 c6cells (by simp [c6cells]) 0 c6a rfl⟩

/-! ### Morphological post-processing (`GridAnalyzerV2.postProcess`) -/

/-- The `grid.get(row,col)?.isOccupied` lookup of `postProcess` on the
current (mutated-in-place) cell list. -/
def occupiedAt (cells : List CellAnalysis) (r c : ℤ) : Bool :=
  match cells.find? (fun cell => decide (cell.row = r ∧ cell.col = c)) with
  | some cell => cell.isOccupied
  | none => false

/-- The 4-neighbourhood offsets `[-1,0],[1,0],[0,-1],[0,1]`. -/
def neighbor4Offsets : List (ℤ × ℤ) := [(-1, 0), (1, 0), (0, -1), (0, 1)]

/-- The 8-neighbourhood offsets. -/
def neighbor8Offsets : List (ℤ × ℤ) :=
  [(-1, -1), (-1, 0), (-1, 1), (0, -1), (0, 1), (1, -1), (1, 0), (1, 1)]

/-- `getNeighborCount` of `postProcess`. -/
def neighbor4Count (cells : List CellAnalysis) (r c : ℤ) : ℕ :=
  neighbor4Offsets.countP (fun d => occupiedAt cells (r + d.1) (c + d.2))

/-- `get8NeighborCount` of `postProcess`. -/
def neighbor8Count (cells : List CellAnalysis) (r c : ℤ) : ℕ :=
  neighbor8Offsets.countP (fun d => occupiedAt cells (r + d.1) (c + d.2))

open Classical in
/-- One iteration of the de-speckle pass (gridAnalyzerV2.ts lines
328–344), acting in place on the current list at index `i`. -/
noncomputable def despeckleCell (cells : List CellAnalysis) (i : ℕ) :
    List CellAnalysis :=
  match cells.get? i with
  | none => cells
  | some cell =>
    if cell.isOccupied then
      if neighbor4Count cells cell.row cell.col = 0 ∧
          neighbor8Count cells cell.row cell.col < 2 then
        cells.set i { cell with isOccupied := false, confidence := 0 }
      else if neighbor4Count cells cell.row cell.col ≤ 1 ∧
          cell.confidence < 0.4 then
        cells.set i { cell with isOccupied := false, confidence := 0 }
      else cells
    else cells

/-- One iteration of the hole-fill pass (gridAnalyzerV2.ts lines
347–356), acting in place on the current list at index `i`. -/
def fillCell (cells : List CellAnalysis) (i : ℕ) : List CellAnalysis :=
  match cells.get? i with
  | none => cells
  | some cell =>
    if cell.isOccupied then cells
    else if neighbor4Count cells cell.row cell.col = 4 ∧ cell.contrast > 3 then
      cells.set i { cell with isOccupied := true, confidence := 0.5 }
    else cells

/-- `GridAnalyzerV2.postProcess`: the sequential in-place de-speckle pass
followed by the sequential in-place hole-fill pass. -/
noncomputable def postProcess (cells : List CellAnalysis) : List CellAnalysis :=
  let pass1 := (List.range cells.length).foldl despeckleCell cells
  (List.range pass1.length).foldl fillCell pass1

/-- The `(row, col)` key of a cell. -/
def cellKey (c : CellAnalysis) : ℤ × ℤ := (c.row, c.col)

/-- The fill-phase prefix states: `pass2Upto a k` is the list after the
fill pass has visited indices `0, …, k-1`. -/
def pass2Upto (a : List CellAnalysis) (k : ℕ) : List CellAnalysis :=
  (List.range k).foldl fillCell a

lemma pass2Upto_zero (a : List CellAnalysis) : pass2Upto a 0 = a := rfl

lemma pass2Upto_succ (a : List CellAnalysis) (k : ℕ) :
    pass2Upto a (k + 1) = fillCell (pass2Upto a k) k := by
  unfold pass2Upto
  rw [List.range_succ, List.foldl_append, List.foldl_cons, List.foldl_nil]

lemma fillCell_length (a : List CellAnalysis) (i : ℕ) :
    (fillCell a i).length = a.length := by
  unfold fillCell
  cases h : a.get? i with
  | none => rfl
  | some cell =>
    by_cases h1 : cell.isOccupied
    · simp [h1]
    · by_cases h2 : neighbor4Count a cell.row cell.col = 4 ∧ cell.contrast > 3
      · simp [h1, h2]
      · simp [h1, h2]

lemma pass2Upto_length (a : List CellAnalysis) (k : ℕ) :
    (pass2Upto a k).length = a.length := by
  induction k with
  | zero => rfl
  | succ m ih => rw [pass2Upto_succ, fillCell_length, ih]

lemma get?_set_self {α : Type} (l : List α) (i : ℕ) (x : α)
    (h : i < l.length) : (l.set i x).get? i = some x := by
  induction l generalizing i with
  | nil => simp at h
  | cons a t ih =>
    cases i with
    | zero => rfl
    | succ m =>
      have hm : m < t.length := by simpa using h
      simpa [List.set] using ih m hm

lemma fillCell_get?_ne (a : List CellAnalysis) (i j : ℕ) (h : j ≠ i) :
    (fillCell a i).get? j = a.get? j := by
  unfold fillCell
  cases hg : a.get? i with
  | none => rfl
  | some cell =>
    by_cases h1 : cell.isOccupied
    · simp [h1]
    · by_cases h2 : neighbor4Count a cell.row cell.col = 4 ∧ cell.contrast > 3
      · simp only [h1, if_false, Bool.false_eq_true, h2, if_true, if_pos h2]
        exact List.get?_set_ne _ _ (Ne.symm h)
      · simp [h1, h2]

/-- What one fill step can do at its own index. -/
lemma fillCell_get?_self (a : List CellAnalysis) (i : ℕ) (cell : CellAnalysis)
    (h : a.get? i = some cell) :
    (fillCell a i = a ∧
      ¬ (cell.isOccupied = false ∧
        neighbor4Count a cell.row cell.col = 4 ∧ 3 < cell.contrast)) ∨
    ((fillCell a i).get? i =
        some { cell with isOccupied := true, confidence := 0.5 } ∧
      cell.isOccupied = false ∧
      neighbor4Count a cell.row cell.col = 4 ∧ 3 < cell.contrast) := by
  unfold fillCell
  rw [h]
  by_cases h1 : cell.isOccupied
  · left
    constructor
    · simp [h1]
    · intro hc
      rw [hc.1] at h1
      exact Bool.noConfusion h1
  · have h1' : cell.isOccupied = false := by
      cases hb : cell.isOccupied
      · rfl
      · exact absurd hb h1
    by_cases h2 : neighbor4Count a cell.row cell.col = 4 ∧ cell.contrast > 3
    · right
      refine ⟨?_, h1', h2.1, h2.2⟩
      simp only [h1, if_false, Bool.false_eq_true, if_pos h2]
      have hi : i < a.length := (List.get?_eq_some.mp h).1
      exact get?_set_self _ _ _ hi
    · left
      constructor
      · simp [h1, h2]
      · intro hc
        exact h2 ⟨hc.2.1, hc.2.2⟩

lemma set_get?_eq_self {α : Type} (l : List α) (i : ℕ) (x : α)
    (h : l.get? i = some x) : l.set i x = l := by
  induction l generalizing i with
  | nil => rfl
  | cons a t ih =>
    cases i with
    | zero =>
      have : a = x := by simpa using h
      simp [List.set, this]
    | succ m =>
      have hm : t.get? m = some x := by simpa using h
      simp [List.set, ih m hm]

lemma fillCell_map_key (a : List CellAnalysis) (i : ℕ) :
    (fillCell a i).map cellKey = a.map cellKey := by
  unfold fillCell
  cases hg : a.get? i with
  | none => rfl
  | some cell =>
    by_cases h1 : cell.isOccupied
    · simp [h1]
    · by_cases h2 : neighbor4Count a cell.row cell.col = 4 ∧ cell.contrast > 3
      · simp only [h1, if_false, Bool.false_eq_true, if_pos h2]
        rw [List.map_set]
        apply set_get?_eq_self
        rw [List.get?_map, hg]
        rfl
      · simp [h1, h2]

lemma pass2Upto_map_key (a : List CellAnalysis) (k : ℕ) :
    (pass2Upto a k).map cellKey = a.map cellKey := by
  induction k with
  | zero => rfl
  | succ m ih => rw [pass2Upto_succ, fillCell_map_key, ih]

lemma fillCell_fields (a : List CellAnalysis) (i j : ℕ) (c' : CellAnalysis)
    (h : (fillCell a i).get? j = some c') :
    ∃ c, a.get? j = some c ∧ c'.row = c.row ∧ c'.col = c.col ∧
      c'.contrast = c.contrast ∧ (c.isOccupied = true → c'.isOccupied = true) := by
  by_cases hj : j = i
  · subst hj
    cases hg : a.get? j with
    | none =>
      have heq : fillCell a j = a := by unfold fillCell; rw [hg]
      rw [heq, hg] at h
      exact Option.noConfusion h
    | some c =>
      rcases fillCell_get?_self a j c hg with ⟨heq, _⟩ | ⟨heq, hocc, _, _⟩
      · rw [heq, hg] at h
        obtain rfl : c = c' := Option.some.inj h
        exact ⟨c, rfl, rfl, rfl, rfl, fun hx => hx⟩
      · rw [heq] at h
        obtain rfl : { c with isOccupied := true, confidence := 0.5 } = c' :=
          Option.some.inj h
        exact ⟨c, rfl, rfl, rfl, rfl, fun _ => rfl⟩
  · rw [fillCell_get?_ne a i j hj] at h
    exact ⟨c', h, rfl, rfl, rfl, fun hx => hx⟩

lemma pass2Upto_fields (a : List CellAnalysis) (k j : ℕ) (c' : CellAnalysis)
    (h : (pass2Upto a k).get? j = some c') :
    ∃ c, a.get? j = some c ∧ c'.row = c.row ∧ c'.col = c.col ∧
      c'.contrast = c.contrast ∧ (c.isOccupied = true → c'.isOccupied = true) := by
  induction k generalizing c' with
  | zero => exact ⟨c', h, rfl, rfl, rfl, fun hx => hx⟩
  | succ m ih =>
    rw [pass2Upto_succ] at h
    obtain ⟨cmid, hmid, hr, hc, hcon, hmono⟩ := fillCell_fields _ _ _ _ h
    obtain ⟨c, hc0, hr0, hc0', hcon0, hmono0⟩ := ih cmid hmid
    exact ⟨c, hc0, hr.trans hr0, hc.trans hc0', hcon.trans hcon0,
      fun hx => hmono (hmono0 hx)⟩

lemma occupiedAt_of_get? (a : List CellAnalysis)
    (hnd : (a.map cellKey).Nodup) (k : ℕ) (cell : CellAnalysis)
    (h : a.get? k = some cell) :
    occupiedAt a cell.row cell.col = cell.isOccupied := by
  unfold occupiedAt
  induction a generalizing k with
  | nil => simp at h
  | cons hd tl ih =>
    by_cases hmatch : (hd.row = cell.row ∧ hd.col = cell.col)
    · have hfind : (hd :: tl).find?
          (fun x => decide (x.row = cell.row ∧ x.col = cell.col)) = some hd := by
        simp [List.find?, hmatch]
      rw [hfind]
      cases k with
      | zero =>
        obtain rfl : hd = cell := by injection h
        rfl
      | succ m =>
        exfalso
        have hmem : cell ∈ tl := List.get?_mem (by simpa using h)
        have hkey : cellKey hd = cellKey cell := by
          unfold cellKey
          rw [hmatch.1, hmatch.2]
        have : cellKey cell ∈ tl.map cellKey := List.mem_map_of_mem _ hmem
        rw [← hkey] at this
        exact (List.nodup_cons.mp (by simpa using hnd)).1 this
    · have hfind : (hd :: tl).find?
          (fun x => decide (x.row = cell.row ∧ x.col = cell.col)) =
          tl.find? (fun x => decide (x.row = cell.row ∧ x.col = cell.col)) := by
        simp [List.find?, hmatch]
      rw [hfind]
      cases k with
      | zero =>
        obtain rfl : hd = cell := by injection h
        exact absurd ⟨rfl, rfl⟩ hmatch
      | succ m =>
        have htl : tl.get? m = some cell := by simpa using h
        exact ih (List.nodup_cons.mp (by simpa using hnd)).2 m htl

lemma occupiedAt_true_elim (a : List CellAnalysis) (r c : ℤ)
    (h : occupiedAt a r c = true) :
    ∃ k cell, a.get? k = some cell ∧ cell.row = r ∧ cell.col = c ∧
      cell.isOccupied = true := by
  unfold occupiedAt at h
  cases hf : a.find? (fun cell => decide (cell.row = r ∧ cell.col = c)) with
  | none => rw [hf] at h; exact Bool.noConfusion h
  | some cell =>
    rw [hf] at h
    have hpred := List.find?_some hf
    have hmem := List.mem_of_find?_eq_some hf
    obtain ⟨k, hk⟩ := List.get?_of_mem hmem
    have hrc : cell.row = r ∧ cell.col = c := by simpa using hpred
    exact ⟨k, cell, hk, hrc.1, hrc.2, h⟩

lemma fillCell_mono_occupiedAt (a : List CellAnalysis) (i : ℕ) (r c : ℤ)
    (hnd : (a.map cellKey).Nodup) (h : occupiedAt a r c = true) :
    occupiedAt (fillCell a i) r c = true := by
  obtain ⟨k, cell, hk, hr, hc, hocc⟩ := occupiedAt_true_elim a r c h
  by_cases hki : k = i
  · subst hki
    rcases fillCell_get?_self a k cell hk with ⟨heq, _⟩ | ⟨_, hfalse, _, _⟩
    · rw [heq]; exact h
    · rw [hfalse] at hocc; exact Bool.noConfusion hocc
  · have hnd' : ((fillCell a i).map cellKey).Nodup := by
      rw [fillCell_map_key]; exact hnd
    have hget : (fillCell a i).get? k = some cell := by
      rw [fillCell_get?_ne a i k hki]; exact hk
    have := occupiedAt_of_get? (fillCell a i) hnd' k cell hget
    rw [hr, hc] at this
    rw [this]
    exact hocc

lemma pass2Upto_mono (a : List CellAnalysis)
    (hnd : (a.map cellKey).Nodup) (k k' : ℕ) (hkk : k ≤ k') (r c : ℤ)
    (h : occupiedAt (pass2Upto a k) r c = true) :
    occupiedAt (pass2Upto a k') r c = true := by
  induction k', hkk using Nat.le_induction with
  | base => exact h
  | succ m hm ih =>
    rw [pass2Upto_succ]
    apply fillCell_mono_occupiedAt
    · rw [pass2Upto_map_key]; exact hnd
    · exact ih

lemma pass2Upto_get?_ge (a : List CellAnalysis) (j k : ℕ) (h : k ≤ j) :
    (pass2Upto a k).get? j = a.get? j := by
  induction k with
  | zero => rfl
  | succ m ih =>
    rw [pass2Upto_succ, fillCell_get?_ne _ _ _ (by omega)]
    exact ih (by omega)

lemma pass2Upto_get?_lt (a : List CellAnalysis) (j k k' : ℕ)
    (hj : j < k) (hkk : k ≤ k') :
    (pass2Upto a k').get? j = (pass2Upto a k).get? j := by
  induction k', hkk using Nat.le_induction with
  | base => rfl
  | succ m hm ih =>
    rw [pass2Upto_succ, fillCell_get?_ne _ _ _ (by omega)]
    exact ih

lemma despeckleCell_map_key (a : List CellAnalysis) (i : ℕ) :
    (despeckleCell a i).map cellKey = a.map cellKey := by
  unfold despeckleCell
  cases hg : a.get? i with
  | none => rfl
  | some cell =>
    have hset : (a.set i
        { cell with isOccupied := false, confidence := 0 }).map cellKey
        = a.map cellKey := by
      rw [List.map_set]
      apply set_get?_eq_self
      rw [List.get?_map, hg]
      rfl
    by_cases h1 : cell.isOccupied
    · by_cases h2 : neighbor4Count a cell.row cell.col = 0 ∧
          neighbor8Count a cell.row cell.col < 2
      · simp only [h1, if_true, if_pos h2]
        exact hset
      · by_cases h3 : neighbor4Count a cell.row cell.col ≤ 1 ∧
            cell.confidence < 0.4
        · simp only [h1, if_true, if_neg h2, if_pos h3]
          exact hset
        · simp [h1, h2, h3]
    · simp [h1]

lemma despeckleFold_map_key (l : List ℕ) (a : List CellAnalysis) :
    (l.foldl despeckleCell a).map cellKey = a.map cellKey := by
  induction l generalizing a with
  | nil => rfl
  | cons x t ih => rw [List.foldl_cons, ih, despeckleCell_map_key]

/-- During the fill pass, a position that is an (empty) 4-neighbour of a
position `(r, c)` that stays empty throughout the pass can never become
occupied: filling it would require all four of its own 4-neighbours —
including `(r, c)` — to be occupied. -/
lemma pass2_empty_neighbor_stays (a : List CellAnalysis)
    (hnd : (a.map cellKey).Nodup) (r c : ℤ)
    (hcenter : ∀ k : ℕ, occupiedAt (pass2Upto a k) r c = false)
    (d : ℤ × ℤ) (hd : d ∈ neighbor4Offsets)
    (k k' : ℕ) (hkk : k ≤ k')
    (h : occupiedAt (pass2Upto a k) (r + d.1) (c + d.2) = false) :
    occupiedAt (pass2Upto a k') (r + d.1) (c + d.2) = false := by
  induction k', hkk using Nat.le_induction with
  | base => exact h
  | succ m hm ih =>
    rw [pass2Upto_succ]
    set s := pass2Upto a m with hs
    have hnds : (s.map cellKey).Nodup := by
      rw [hs, pass2Upto_map_key]; exact hnd
    by_contra hne
    have htrue : occupiedAt (fillCell s m) (r + d.1) (c + d.2) = true := by
      cases hb : occupiedAt (fillCell s m) (r + d.1) (c + d.2)
      · exact absurd hb hne
      · rfl
    obtain ⟨idx, cellD, hget, hrow, hcol, hocc⟩ :=
      occupiedAt_true_elim _ _ _ htrue
    by_cases hidx : idx = m
    · rw [hidx] at hget
      cases hh : s.get? m with
      | none =>
        have heqq : fillCell s m = s := by unfold fillCell; rw [hh]
        rw [heqq, hh] at hget
        exact Option.noConfusion hget
      | some cellM =>
        rcases fillCell_get?_self s m cellM hh with
          ⟨heq, _⟩ | ⟨hset, _, hn4, _⟩
        · rw [heq] at hget
          have hocs := occupiedAt_of_get? s hnds m cellD hget
          rw [hrow, hcol] at hocs
          have hcontra : occupiedAt s (r + d.1) (c + d.2) = true := by
            rw [hocs, hocc]
          exact Bool.noConfusion (ih.symm.trans hcontra)
        · rw [hset] at hget
          obtain rfl : { cellM with isOccupied := true, confidence := 0.5 }
              = cellD := Option.some.inj hget
          have hrowM : cellM.row = r + d.1 := hrow
          have hcolM : cellM.col = c + d.2 := hcol
          have hcnt : neighbor4Count s cellM.row cellM.col
              = neighbor4Offsets.length := by rw [hn4]; rfl
          have hall := List.countP_eq_length.mp hcnt
          have hmem : ((-d.1, -d.2) : ℤ × ℤ) ∈ neighbor4Offsets := by
            simp only [neighbor4Offsets, List.mem_cons,
              List.not_mem_nil, or_false] at hd
            rcases hd with rfl | rfl | rfl | rfl <;> decide
          have hat : occupiedAt s (cellM.row + -d.1) (cellM.col + -d.2)
              = true := hall _ hmem
          rw [hrowM, hcolM, show r + d.1 + -d.1 = r from by ring,
            show c + d.2 + -d.2 = c from by ring] at hat
          have hcf := hcenter m
          rw [← hs] at hcf
          exact Bool.noConfusion (hcf.symm.trans hat)
    · have hget' : s.get? idx = some cellD := by
        rw [← fillCell_get?_ne s m idx hidx]
        exact hget
      have hocs := occupiedAt_of_get? s hnds idx cellD hget'
      rw [hrow, hcol] at hocs
      have hcontra : occupiedAt s (r + d.1) (c + d.2) = true := by
        rw [hocs, hocc]
      exact Bool.noConfusion (ih.symm.trans hcontra)

/-- C7 (amended): the hole-fill half of the morphology invariant holds:
after `postProcess`, provided the cells have pairwise distinct `(row, col)`
keys, no cell left empty with contrast > 3 has all four of its
4-neighbours occupied. (The de-speckle half of the claimed invariant is
refuted separately: because the de-speckle pass mutates the grid in
place, removing one speckle can orphan an occupied cell that then has
zero occupied 4-neighbours and at most one occupied 8-neighbour.) -/
theorem postProcess_empty_not_surrounded (cells : List CellAnalysis)
    (hnd : (cells.map cellKey).Nodup) (j : ℕ) (cell : CellAnalysis)
    (hget : (postProcess cells).get? j = some cell)
    (hempty : cell.isOccupied = false) (hcon : 3 < cell.contrast) :
    neighbor4Count (postProcess cells) cell.row cell.col < 4 := by
  set a := (List.range cells.length).foldl despeckleCell cells with ha
  have hpp : postProcess cells = pass2Upto a a.length := rfl
  have hnda : (a.map cellKey).Nodup := by
    rw [ha, despeckleFold_map_key]; exact hnd
  set n := a.length with hn
  rw [hpp] at hget ⊢
  have hjn : j < n := by
    by_contra hge
    push_neg at hge
    have hlen : (pass2Upto a n).length ≤ j := by
      rw [pass2Upto_length]; omega
    rw [List.get?_eq_none.mpr hlen] at hget
    exact Option.noConfusion hget
  have hfr : (pass2Upto a n).get? j = (pass2Upto a (j + 1)).get? j :=
    pass2Upto_get?_lt a j (j + 1) n (by omega) (by omega)
  have hsj : (pass2Upto a j).get? j = a.get? j := pass2Upto_get?_ge a j j le_rfl
  cases hgj : a.get? j with
  | none =>
    exfalso
    have h0 : (pass2Upto a j).get? j = none := by rw [hsj, hgj]
    have hfe : fillCell (pass2Upto a j) j = pass2Upto a j := by
      unfold fillCell; rw [h0]
    rw [hfr, pass2Upto_succ, hfe, h0] at hget
    exact Option.noConfusion hget
  | some cj =>
    have hsjc : (pass2Upto a j).get? j = some cj := by rw [hsj, hgj]
    rcases fillCell_get?_self (pass2Upto a j) j cj hsjc with
      ⟨heq, hnot⟩ | ⟨hset, _, _, _⟩
    · have hcells : cell = cj := by
        rw [hfr, pass2Upto_succ, heq, hsjc] at hget
        exact (Option.some.inj hget).symm
      subst hcells
      have hne4 : neighbor4Count (pass2Upto a j) cell.row cell.col ≠ 4 := by
        intro h4
        exact hnot ⟨hempty, h4, hcon⟩
      have hex : ∃ d ∈ neighbor4Offsets,
          occupiedAt (pass2Upto a j) (cell.row + d.1) (cell.col + d.2)
            = false := by
        by_contra hall
        push_neg at hall
        apply hne4
        have hallT : ∀ d ∈ neighbor4Offsets,
            occupiedAt (pass2Upto a j) (cell.row + d.1) (cell.col + d.2)
              = true := by
          intro d hd
          cases hb : occupiedAt (pass2Upto a j) (cell.row + d.1)
              (cell.col + d.2)
          · exact absurd hb (hall d hd)
          · rfl
        exact (List.countP_eq_length.mpr hallT).trans rfl
      obtain ⟨d, hd, hfd⟩ := hex
      have hcenter : ∀ k : ℕ,
          occupiedAt (pass2Upto a k) cell.row cell.col = false := by
        intro k
        have hk : (pass2Upto a k).get? j = some cell := by
          rcases le_or_lt k j with hkj | hjk
          · rw [pass2Upto_get?_ge a j k hkj, hgj]
          · have hfrk : (pass2Upto a k).get? j
                = (pass2Upto a (j + 1)).get? j :=
              pass2Upto_get?_lt a j (j + 1) k (by omega) (by omega)
            rw [hfrk, pass2Upto_succ, heq, hsjc]
        have hndk : ((pass2Upto a k).map cellKey).Nodup := by
          rw [pass2Upto_map_key]; exact hnda
        have hok := occupiedAt_of_get? (pass2Upto a k) hndk j cell hk
        rw [hok, hempty]
      have hfinal := pass2_empty_neighbor_stays a hnda cell.row cell.col
        hcenter d hd j n (by omega) hfd
      by_contra hge4
      push_neg at hge4
      have hle : neighbor4Count (pass2Upto a n) cell.row cell.col ≤ 4 := by
        unfold neighbor4Count
        exact le_trans (List.countP_le_length _) (le_of_eq rfl)
      have h4 : neighbor4Count (pass2Upto a n) cell.row cell.col = 4 :=
        le_antisymm hle hge4
      have hcnt : neighbor4Count (pass2Upto a n) cell.row cell.col
          = neighbor4Offsets.length := by rw [h4]; rfl
      have hall := List.countP_eq_length.mp hcnt
      have hdT : occupiedAt (pass2Upto a n) (cell.row + d.1) (cell.col + d.2)
          = true := hall _ hd
      exact Bool.noConfusion (hfinal.symm.trans hdT)
    · exfalso
      rw [hfr, pass2Upto_succ, hset] at hget
      obtain rfl := Option.some.inj hget
      exact Bool.noConfusion hempty

/-- A single empty cell with contrast 10: `postProcess` leaves it alone
and it has no occupied neighbours. -/
noncomputable def c7w : CellAnalysis := ⟨0, 0, 0, 0, false, 0, 0, 0, 10⟩

lemma despeckle_c7w : despeckleCell [c7w] 0 = [c7w] := by
  simp only [despeckleCell, List.get?]
  rw [if_neg (by decide : ¬ c7w.isOccupied = true)]

lemma fill_c7w : fillCell [c7w] 0 = [c7w] := by
  simp only [fillCell, List.get?]
  rw [if_neg (by decide : ¬ c7w.isOccupied = true)]
  rw [if_neg (fun hc : neighbor4Count [c7w] c7w.row c7w.col = 4 ∧
      c7w.contrast > 3 => absurd hc.1 (by decide))]

lemma postProcess_c7w : postProcess [c7w] = [c7w] := by
  simp only [postProcess]
  rw [show List.range ([c7w].length) = [0] from rfl, List.foldl_cons,
    List.foldl_nil, despeckle_c7w]
  rw [show List.range ([c7w].length) = [0] from rfl, List.foldl_cons,
    List.foldl_nil, fill_c7w]

/-- Witness for the amended C7 on a concrete one-cell grid. -/
theorem postProcess_empty_not_surrounded_witness :
    (([c7w].map cellKey).Nodup ∧ (postProcess [c7w]).get? 0 = some c7w ∧
      c7w.isOccupied = false ∧ 3 < c7w.contrast) ∧
    neighbor4Count (postProcess [c7w]) c7w.row c7w.col < 4 :=
  ⟨⟨by decide, by rw [postProcess_c7w]; rfl, rfl,
      by rw [show c7w.contrast = 10 from rfl]; norm_num⟩,
    postProcess_empty_not_surrounded [c7w] (by decide) 0 c7w
      (by rw [postProcess_c7w]; rfl) rfl
      (by rw [show c7w.contrast = 10 from rfl]; norm_num)⟩

/-- An occupied cell at (0,0) with confidence 0.5 whose only neighbour,
the occupied low-confidence cell at (1,0), is removed by the de-speckle
pass. -/
noncomputable def c7a : CellAnalysis := ⟨0, 0, 0, 0, true, 0.5, 0, 0, 10⟩

/-- The occupied cell at (1,0) with confidence 0.3 < 0.4. -/
noncomputable def c7b : CellAnalysis := ⟨1, 0, 0, 0, true, 0.3, 0, 0, 10⟩

/-- `c7b` after the de-speckle pass toggles it to empty. -/
noncomputable def c7b2 : CellAnalysis := ⟨1, 0, 0, 0, false, 0, 0, 0, 10⟩

lemma despeckle_c7_0 : despeckleCell [c7a, c7b] 0 = [c7a, c7b] := by
  simp only [despeckleCell, List.get?]
  rw [if_pos (show c7a.isOccupied = true from rfl)]
  rw [if_neg (by decide : ¬ (neighbor4Count [c7a, c7b] c7a.row c7a.col = 0 ∧
    neighbor8Count [c7a, c7b] c7a.row c7a.col < 2))]
  rw [if_neg (fun hc : neighbor4Count [c7a, c7b] c7a.row c7a.col ≤ 1 ∧
      c7a.confidence < 0.4 => by
    have h5 : c7a.confidence = 0.5 := rfl
    rw [h5] at hc
    norm_num at hc)]

lemma despeckle_c7_1 : despeckleCell [c7a, c7b] 1 = [c7a, c7b2] := by
  simp only [despeckleCell, List.get?]
  rw [if_pos (show c7b.isOccupied = true from rfl)]
  rw [if_neg (by decide : ¬ (neighbor4Count [c7a, c7b] c7b.row c7b.col = 0 ∧
    neighbor8Count [c7a, c7b] c7b.row c7b.col < 2))]
  rw [if_pos (⟨by decide, by
      rw [show c7b.confidence = 0.3 from rfl]; norm_num⟩ :
    neighbor4Count [c7a, c7b] c7b.row c7b.col ≤ 1 ∧ c7b.confidence < 0.4)]
  rfl

lemma fill_c7_0 : fillCell [c7a, c7b2] 0 = [c7a, c7b2] := by
  simp only [fillCell, List.get?]
  rw [if_pos (show c7a.isOccupied = true from rfl)]

lemma fill_c7_1 : fillCell [c7a, c7b2] 1 = [c7a, c7b2] := by
  simp only [fillCell, List.get?]
  rw [if_neg (by decide : ¬ c7b2.isOccupied = true)]
  rw [if_neg (fun hc : neighbor4Count [c7a, c7b2] c7b2.row c7b2.col = 4 ∧
      c7b2.contrast > 3 => absurd hc.1 (by decide))]

lemma postProcess_c7ab : postProcess [c7a, c7b] = [c7a, c7b2] := by
  simp only [postProcess]
  rw [show List.range ([c7a, c7b].length) = [0, 1] from rfl, List.foldl_cons,
    despeckle_c7_0, List.foldl_cons, despeckle_c7_1, List.foldl_nil]
  rw [show List.range ([c7a, c7b2].length) = [0, 1] from rfl, List.foldl_cons,
    fill_c7_0, List.foldl_cons, fill_c7_1, List.foldl_nil]

/-- C7 counterexample: on the two-cell grid `[c7a, c7b]` (an occupied
cell at (0,0) with confidence 0.5 and an occupied cell at (1,0) with
confidence 0.3), the sequential de-speckle pass removes the (1,0) cell
— at which point the (0,0) cell has already been visited — so after the
whole `postProcess` the (0,0) cell is still occupied although it has
zero occupied 4-neighbours and at most one occupied 8-neighbour,
violating the claimed de-speckle half of the morphology invariant. -/
theorem postProcess_orphan_occupied :
    (postProcess [c7a, c7b]).get? 0 = some c7a ∧
    c7a.isOccupied = true ∧
    neighbor4Count (postProcess [c7a, c7b]) c7a.row c7a.col = 0 ∧
    neighbor8Count (postProcess [c7a, c7b]) c7a.row c7a.col ≤ 1 := by
  rw [postProcess_c7ab]
  refine ⟨rfl, rfl, ?_, ?_⟩ <;> decide

/-! ### Color recognizer failure path (`ColorRecognizer.recognize`) -/

/-- One hexadecimal digit character of `toString(16)`. -/
def toHexDigitChar (k : ℕ) : Char :=
  if k < 10 then Char.ofNat (48 + k) else Char.ofNat (87 + k)

/-- The `toHex` helper of `rgbToHex` at natural inputs: clamp to 255 and
print two hex digits (the JS `toString(16)` result padded to length 2). -/
def toHexByte (n : ℕ) : String :=
  let m := min n 255
  String.mk [toHexDigitChar (m / 16), toHexDigitChar (m % 16)]

/-- `rgbToHex` from colorUtils.ts at natural inputs. -/
def rgbToHex (r g b : ℕ) : String :=
  "#" ++ toHexByte r ++ toHexByte g ++ toHexByte b

/-- `RecognizedColor` from types.ts. -/
structure RecognizedColor where
  hex : String
  rgb : ℕ × ℕ × ℕ
  lab : Lab
  beadColorName : String
  beadColorCode : String
  confidence : ℝ
  deltaE : ℝ

/-- `ColorRecognizer.recognize` when clustering failed (`best = null`,
reached when K-means throws or every attempt returns the
`fallbackCluster`): `lab = [50, 0, 0]`, `rgb = [128, 128, 128]`, then the
normal matching tail of `recognize` (colorRecognizer.ts lines 64–93). -/
noncomputable def recognizeFallback (database : List BeadColor) :
    RecognizedColor :=
  let lab : Lab := (50, 0, 0)
  let rgb : ℕ × ℕ × ℕ := (128, 128, 128)
  let hex := rgbToHex 128 128 128
  match findClosestColor database lab with
  | none => ⟨hex, rgb, lab, "未知", "", 0, 999⟩
  | some mt => ⟨hex, rgb, lab, mt.beadColor.name, mt.beadColor.code,
      mt.confidence, mt.deltaE⟩

lemma matchConfidence_pos (de : ℝ) (h : de < 17) : 0 < matchConfidence de := by
  unfold matchConfidence
  by_cases h2 : de < 2
  · rw [if_pos h2]; norm_num
  · rw [if_neg h2]
    push_neg at h2
    have hlt : 0 < 1 - (de - 2) / 15 := by nlinarith
    exact lt_of_lt_of_le hlt (le_max_right _ _)

lemma chromaOf_nonneg (a b : ℝ) : 0 ≤ chromaOf a b := Real.sqrt_nonneg _

lemma chromaOf_zero : chromaOf 0 0 = 0 := by
  simp [chromaOf]

lemma chromaOf_le (a b : ℝ) : chromaOf a b ≤ |a| + |b| := by
  unfold chromaOf
  have h1 : a * a + b * b ≤ (|a| + |b|) ^ 2 := by
    have h2 : a * a = |a| ^ 2 := by rw [sq_abs]; ring
    have h3 : b * b = |b| ^ 2 := by rw [sq_abs]; ring
    nlinarith [mul_nonneg (abs_nonneg a) (abs_nonneg b)]
  calc Real.sqrt (a * a + b * b) ≤ Real.sqrt ((|a| + |b|) ^ 2) :=
        Real.sqrt_le_sqrt h1
    _ = |a| + |b| := Real.sqrt_sq (by positivity)

lemma gOf_mem (C1 C2 : ℝ) (h1 : 0 ≤ C1) (h2 : 0 ≤ C2) :
    0 ≤ gOf C1 C2 ∧ gOf C1 C2 ≤ 0.5 := by
  unfold gOf
  simp only
  have hCb : (0:ℝ) ≤ (C1 + C2) / 2 := by positivity
  have hden : (0:ℝ) < ((C1 + C2) / 2) ^ 7 + 6103515625 := by positivity
  have hsq : 0 ≤ Real.sqrt (((C1 + C2) / 2) ^ 7 /
      (((C1 + C2) / 2) ^ 7 + 6103515625)) := Real.sqrt_nonneg _
  have hle1 : Real.sqrt (((C1 + C2) / 2) ^ 7 /
      (((C1 + C2) / 2) ^ 7 + 6103515625)) ≤ 1 := by
    rw [show (1:ℝ) = Real.sqrt 1 from Real.sqrt_one.symm]
    apply Real.sqrt_le_sqrt
    rw [div_le_one hden]
    nlinarith [pow_nonneg hCb 7]
  constructor <;> nlinarith [hsq, hle1]

/-- `t^(1/3) ≤ q` whenever `t ≤ q³`. -/
lemma rpow_third_le_of_cube (a q : ℝ) (ha : 0 ≤ a) (hq : 0 ≤ q)
    (h : a ≤ q ^ (3:ℕ)) : a ^ ((1:ℝ)/3) ≤ q := by
  have h3 : ((q : ℝ) ^ (3 : ℕ)) ^ ((1:ℝ)/3) = q := by
    rw [← Real.rpow_natCast q 3, ← Real.rpow_mul hq]
    rw [show ((3:ℕ):ℝ) * ((1:ℝ)/3) = 1 from by norm_num, Real.rpow_one]
  calc a ^ ((1:ℝ)/3) ≤ ((q : ℝ) ^ (3 : ℕ)) ^ ((1:ℝ)/3) :=
        Real.rpow_le_rpow ha h (by norm_num)
    _ = q := h3

/-- `q ≤ t^(1/3)` whenever `q³ ≤ t`. -/
lemma le_rpow_third_of_cube (a q : ℝ) (hq : 0 ≤ q)
    (h : q ^ (3:ℕ) ≤ a) : q ≤ a ^ ((1:ℝ)/3) := by
  have h3 : ((q : ℝ) ^ (3 : ℕ)) ^ ((1:ℝ)/3) = q := by
    rw [← Real.rpow_natCast q 3, ← Real.rpow_mul hq]
    rw [show ((3:ℕ):ℝ) * ((1:ℝ)/3) = 1 from by norm_num, Real.rpow_one]
  calc q = ((q : ℝ) ^ (3 : ℕ)) ^ ((1:ℝ)/3) := h3.symm
    _ ≤ a ^ ((1:ℝ)/3) := Real.rpow_le_rpow (by positivity) h (by norm_num)

/-- For a Lab value close to the neutral gray `(50, 0, 0)` — lightness
within 8.7 of 50 and chroma components below `1e-4` — its ΔE2000 distance
from `(50, 0, 0)` is below 17: with `C1p = 0` the hue term vanishes and
`ΔE ≤ √(8.7² + ε²) < 9`. -/
lemma deltaE2000_gray_small (L2 a2 b2 : ℝ)
    (hdL : |L2 - 50| ≤ 8.7) (ha : |a2| ≤ 1e-4) (hb : |b2| ≤ 1e-4) :
    deltaE2000 ((50:ℝ), (0:ℝ), (0:ℝ)) (L2, a2, b2) < 17 := by
  unfold deltaE2000
  simp only
  simp only [chromaOf_zero, zero_mul, Real.sqrt_zero, mul_zero, zero_div,
    sub_zero, zero_add, ne_eq, OfNat.ofNat_ne_zero, not_false_eq_true,
    zero_pow, add_zero]
  set C2 := chromaOf a2 b2 with hC2
  set G := gOf 0 C2 with hG
  have hC2nn : 0 ≤ C2 := by rw [hC2]; exact chromaOf_nonneg _ _
  have hG01 := gOf_mem 0 C2 le_rfl hC2nn
  set C2p := chromaOf (a2 * (1 + G)) b2 with hC2p
  have hC2pnn : 0 ≤ C2p := by rw [hC2p]; exact chromaOf_nonneg _ _
  have ha2p : |a2 * (1 + G)| ≤ 1.5e-4 := by
    rw [abs_mul, abs_of_pos (show (0:ℝ) < 1 + G by linarith [hG01.1])]
    calc |a2| * (1 + G) ≤ 1e-4 * 1.5 :=
          mul_le_mul ha (by linarith [hG01.2]) (by linarith [hG01.1])
            (by norm_num)
      _ = 1.5e-4 := by norm_num
  have hC2ple : C2p ≤ 2.5e-4 := by
    rw [hC2p]
    calc chromaOf (a2 * (1 + G)) b2 ≤ |a2 * (1 + G)| + |b2| := chromaOf_le _ _
      _ ≤ 1.5e-4 + 1e-4 := add_le_add ha2p hb
      _ = 2.5e-4 := by norm_num
  rw [Real.sqrt_lt' (by norm_num : (0:ℝ) < 17)]
  have habs := abs_le.mp hdL
  have hSl : (1:ℝ) ≤ 1 + 0.015 * ((50 + L2) / 2 - 50) ^ 2 /
      Real.sqrt (20 + ((50 + L2) / 2 - 50) ^ 2) := by
    have hnn : (0:ℝ) ≤ 0.015 * ((50 + L2) / 2 - 50) ^ 2 /
        Real.sqrt (20 + ((50 + L2) / 2 - 50) ^ 2) := by positivity
    linarith
  have hSc : (1:ℝ) ≤ 1 + 0.045 * (C2p / 2) := by nlinarith [hC2pnn]
  have hA : ((L2 - 50) / (1 + 0.015 * ((50 + L2) / 2 - 50) ^ 2 /
      Real.sqrt (20 + ((50 + L2) / 2 - 50) ^ 2))) ^ 2 ≤ 75.69 := by
    rw [div_pow]
    calc (L2 - 50) ^ 2 / (1 + 0.015 * ((50 + L2) / 2 - 50) ^ 2 /
          Real.sqrt (20 + ((50 + L2) / 2 - 50) ^ 2)) ^ 2
        ≤ (L2 - 50) ^ 2 := div_le_self (sq_nonneg _) (by nlinarith [hSl])
      _ ≤ 75.69 := by nlinarith [habs.1, habs.2]
  have hB : (C2p / (1 + 0.045 * (C2p / 2))) ^ 2 ≤ 1 := by
    rw [div_pow]
    calc C2p ^ 2 / (1 + 0.045 * (C2p / 2)) ^ 2 ≤ C2p ^ 2 :=
          div_le_self (sq_nonneg _) (by nlinarith [hSc])
      _ ≤ 1 := by nlinarith [hC2ple, hC2pnn]
  nlinarith [hA, hB]

/-- Component bounds for the Lab value of a uniform gray whose linear
channel value `v` lies in the bracket `[(313/633)³, (313/633)²]` — the
case of `#777777`, whose sRGB channel gives `x = 313/633` and
`v = x^2.4 ∈ [x³, x²]`. -/
lemma lab_gray_component_bounds (v : ℝ)
    (hv_lo : ((313:ℝ)/633) ^ (3:ℕ) ≤ v)
    (hv_hi : v ≤ ((313:ℝ)/633) ^ (2:ℕ)) :
    |(116 * ((1.0000001 * v) ^ ((1:ℝ)/3)) - 16) - 50| ≤ 8.7 ∧
    |500 * (v ^ ((1:ℝ)/3) - (1.0000001 * v) ^ ((1:ℝ)/3))| ≤ 1e-4 ∧
    |200 * ((1.0000001 * v) ^ ((1:ℝ)/3) - v ^ ((1:ℝ)/3))| ≤ 1e-4 := by
  have hv_nn : 0 ≤ v := le_trans (by positivity) hv_lo
  set w := v ^ ((1:ℝ)/3) with hwdef
  set w' := (1.0000001 * v) ^ ((1:ℝ)/3) with hwpdef
  set c13 := (1.0000001:ℝ) ^ ((1:ℝ)/3) with hc13def
  have hw_ge : (313:ℝ)/633 ≤ w := by
    rw [hwdef]
    exact le_rpow_third_of_cube v ((313:ℝ)/633) (by norm_num) hv_lo
  have hw_le : w ≤ 0.626 := by
    rw [hwdef]
    exact rpow_third_le_of_cube v 0.626 hv_nn (by norm_num)
      (le_trans hv_hi (by norm_num))
  have hw_pos : 0 < w := lt_of_lt_of_le (by norm_num) hw_ge
  have hc13_ge : (1:ℝ) ≤ c13 := by
    rw [hc13def]
    calc (1:ℝ) = (1:ℝ) ^ ((1:ℝ)/3) := (Real.one_rpow _).symm
      _ ≤ (1.0000001:ℝ) ^ ((1:ℝ)/3) :=
          Real.rpow_le_rpow (by norm_num) (by norm_num) (by norm_num)
  have hc13_le : c13 ≤ 1.0000001 := by
    rw [hc13def]
    calc (1.0000001:ℝ) ^ ((1:ℝ)/3) ≤ (1.0000001:ℝ) ^ (1:ℝ) :=
          Real.rpow_le_rpow_of_exponent_le (by norm_num) (by norm_num)
      _ = 1.0000001 := Real.rpow_one _
  have hwp_eq : w' = c13 * w := by
    rw [hwpdef, hwdef, hc13def]
    exact Real.mul_rpow (by norm_num) hv_nn
  have hwp_ge : w ≤ w' := by
    rw [hwp_eq]
    nlinarith [hc13_ge, hw_pos]
  have hwp_le : w' ≤ w + 1e-7 := by
    have hd1 : (c13 - 1) * w ≤ 1e-7 * 0.626 :=
      mul_le_mul (by linarith) hw_le (le_of_lt hw_pos) (by norm_num)
    rw [hwp_eq]
    nlinarith [hd1]
  refine ⟨?_, ?_, ?_⟩
  · rw [abs_le]
    constructor
    · nlinarith [hw_ge, hwp_ge]
    · nlinarith [hw_le, hwp_le]
  · rw [abs_le]
    constructor
    · nlinarith [hwp_le]
    · nlinarith [hwp_ge]
  · rw [abs_le]
    constructor
    · nlinarith [hwp_ge]
    · nlinarith [hwp_le]

lemma srgbToLinear_119 : srgbToLinear 119 = ((313:ℝ)/633) ^ (2.4:ℝ) := by
  unfold srgbToLinear
  simp only
  rw [if_neg (by norm_num : ¬ ((119:ℝ)/255 ≤ 0.04045))]
  rw [show ((119:ℝ)/255 + 0.055)/1.055 = 313/633 from by norm_num]

lemma lab119_eq : rgbToLab 119 119 119 =
    (116 * ((1.0000001 * ((313:ℝ)/633) ^ (2.4:ℝ)) ^ ((1:ℝ)/3)) - 16,
     500 * ((((313:ℝ)/633) ^ (2.4:ℝ)) ^ ((1:ℝ)/3)
        - (1.0000001 * ((313:ℝ)/633) ^ (2.4:ℝ)) ^ ((1:ℝ)/3)),
     200 * ((1.0000001 * ((313:ℝ)/633) ^ (2.4:ℝ)) ^ ((1:ℝ)/3)
        - (((313:ℝ)/633) ^ (2.4:ℝ)) ^ ((1:ℝ)/3))) := by
  have hvlo : ((313:ℝ)/633) ^ (3:ℕ) ≤ ((313:ℝ)/633) ^ (2.4:ℝ) := by
    calc ((313:ℝ)/633) ^ (3:ℕ) = ((313:ℝ)/633) ^ ((3:ℕ):ℝ) :=
          (Real.rpow_natCast _ 3).symm
      _ ≤ ((313:ℝ)/633) ^ (2.4:ℝ) :=
          Real.rpow_le_rpow_of_exponent_ge (by norm_num) (by norm_num)
            (by norm_num)
  have hbig : (0.008856:ℝ) < ((313:ℝ)/633) ^ (2.4:ℝ) :=
    lt_of_lt_of_le (by norm_num) hvlo
  have hybig : (0.008856:ℝ) < 1.0000001 * ((313:ℝ)/633) ^ (2.4:ℝ) := by
    nlinarith [hbig]
  unfold rgbToLab linearRgbToXyz xyzToLab
  simp only
  rw [srgbToLinear_119]
  rw [show (0.4124564:ℝ) * (((313:ℝ)/633) ^ (2.4:ℝ))
      + 0.3575761 * (((313:ℝ)/633) ^ (2.4:ℝ))
      + 0.1804375 * (((313:ℝ)/633) ^ (2.4:ℝ))
      = 0.95047 * (((313:ℝ)/633) ^ (2.4:ℝ)) from by ring]
  rw [show (0.2126729:ℝ) * (((313:ℝ)/633) ^ (2.4:ℝ))
      + 0.7151522 * (((313:ℝ)/633) ^ (2.4:ℝ))
      + 0.072175 * (((313:ℝ)/633) ^ (2.4:ℝ))
      = 1.0000001 * (((313:ℝ)/633) ^ (2.4:ℝ)) from by ring]
  rw [show (0.0193339:ℝ) * (((313:ℝ)/633) ^ (2.4:ℝ))
      + 0.119192 * (((313:ℝ)/633) ^ (2.4:ℝ))
      + 0.9503041 * (((313:ℝ)/633) ^ (2.4:ℝ))
      = 1.08883 * (((313:ℝ)/633) ^ (2.4:ℝ)) from by ring]
  rw [mul_div_cancel_left₀ (((313:ℝ)/633) ^ (2.4:ℝ))
      (show (0.95047:ℝ) ≠ 0 from by norm_num)]
  rw [mul_div_cancel_left₀ (((313:ℝ)/633) ^ (2.4:ℝ))
      (show (1.08883:ℝ) ≠ 0 from by norm_num)]
  rw [div_one]
  rw [show labF (((313:ℝ)/633) ^ (2.4:ℝ))
      = (((313:ℝ)/633) ^ (2.4:ℝ)) ^ ((1:ℝ)/3) from by
    unfold labF; rw [if_pos hbig]]
  rw [show labF (1.0000001 * ((313:ℝ)/633) ^ (2.4:ℝ))
      = (1.0000001 * ((313:ℝ)/633) ^ (2.4:ℝ)) ^ ((1:ℝ)/3) from by
    unfold labF; rw [if_pos hybig]]

/-- The ΔE2000 distance between the fallback gray Lab `(50, 0, 0)` and
the Lab of `#777777` is below the confidence cutoff 17. -/
lemma deltaE_gray119_lt_17 :
    deltaE2000 ((50:ℝ), (0:ℝ), (0:ℝ)) (rgbToLab 119 119 119) < 17 := by
  have hvlo : ((313:ℝ)/633) ^ (3:ℕ) ≤ ((313:ℝ)/633) ^ (2.4:ℝ) := by
    calc ((313:ℝ)/633) ^ (3:ℕ) = ((313:ℝ)/633) ^ ((3:ℕ):ℝ) :=
          (Real.rpow_natCast _ 3).symm
      _ ≤ ((313:ℝ)/633) ^ (2.4:ℝ) :=
          Real.rpow_le_rpow_of_exponent_ge (by norm_num) (by norm_num)
            (by norm_num)
  have hvhi : ((313:ℝ)/633) ^ (2.4:ℝ) ≤ ((313:ℝ)/633) ^ (2:ℕ) := by
    calc ((313:ℝ)/633) ^ (2.4:ℝ) ≤ ((313:ℝ)/633) ^ ((2:ℕ):ℝ) :=
          Real.rpow_le_rpow_of_exponent_ge (by norm_num) (by norm_num)
            (by norm_num)
      _ = ((313:ℝ)/633) ^ (2:ℕ) := Real.rpow_natCast _ 2
  obtain ⟨h1, h2, h3⟩ :=
    lab_gray_component_bounds (((313:ℝ)/633) ^ (2.4:ℝ)) hvlo hvhi
  rw [lab119_eq]
  exact deltaE2000_gray_small _ _ _ h1 h2 h3

/-- C8 (amended): when clustering fails, `recognize` emits the neutral
gray rgb `(128,128,128)` with lab `(50,0,0)` and the bead color of the
database's nearest match for that gray — but its reported confidence is
the ΔE-based *match* confidence of that nearest entry, which is positive
whenever the nearest entry is within ΔE2000 < 17 of `(50,0,0)`; it is not
the constant 0 that the specification states. -/
theorem recognizeFallback_gray_match (db : List BeadColor) (hdb : db ≠ []) :
    (recognizeFallback db).rgb = (128, 128, 128) ∧
    (recognizeFallback db).lab = ((50:ℝ), (0:ℝ), (0:ℝ)) ∧
    ∃ m, findClosestColor db ((50:ℝ), (0:ℝ), (0:ℝ)) = some m ∧
      (recognizeFallback db).beadColorName = m.beadColor.name ∧
      (recognizeFallback db).beadColorCode = m.beadColor.code ∧
      (recognizeFallback db).confidence = m.confidence ∧
      (m.deltaE < 17 → 0 < (recognizeFallback db).confidence) := by
  cases db with
  | nil => exact absurd rfl hdb
  | cons c0 rest =>
    refine ⟨rfl, rfl,
      ⟨(rest.foldl (closestStep ((50:ℝ), (0:ℝ), (0:ℝ)))
          (c0, deltaE2000 ((50:ℝ), (0:ℝ), (0:ℝ)) c0.lab)).1,
        matchConfidence (rest.foldl (closestStep ((50:ℝ), (0:ℝ), (0:ℝ)))
          (c0, deltaE2000 ((50:ℝ), (0:ℝ), (0:ℝ)) c0.lab)).2,
        (rest.foldl (closestStep ((50:ℝ), (0:ℝ), (0:ℝ)))
          (c0, deltaE2000 ((50:ℝ), (0:ℝ), (0:ℝ)) c0.lab)).2⟩,
      rfl, rfl, rfl, rfl, ?_⟩
    intro hde
    exact matchConfidence_pos _ hde

/-- Witness for the amended C8 on the one-entry database
`("gray", "#777777")`. -/
theorem recognizeFallback_gray_match_witness :
    (loadFromColorCards [("gray", "#777777")] ≠ []) ∧
    ((recognizeFallback (loadFromColorCards [("gray", "#777777")])).rgb
        = (128, 128, 128) ∧
     (recognizeFallback (loadFromColorCards [("gray", "#777777")])).lab
        = ((50:ℝ), (0:ℝ), (0:ℝ)) ∧
     ∃ m, findClosestColor (loadFromColorCards [("gray", "#777777")])
          ((50:ℝ), (0:ℝ), (0:ℝ)) = some m ∧
       (recognizeFallback
          (loadFromColorCards [("gray", "#777777")])).beadColorName
          = m.beadColor.name ∧
       (recognizeFallback
          (loadFromColorCards [("gray", "#777777")])).beadColorCode
          = m.beadColor.code ∧
       (recognizeFallback
          (loadFromColorCards [("gray", "#777777")])).confidence
          = m.confidence ∧
       (m.deltaE < 17 → 0 < (recognizeFallback
          (loadFromColorCards [("gray", "#777777")])).confidence)) :=
  ⟨by simp [loadFromColorCards],
    recognizeFallback_gray_match _ (by simp [loadFromColorCards])⟩

/-- C8 counterexample: on the database loaded from the single card
`("gray", "#777777")`, the clustering-failure path emits the gray rgb
`(128,128,128)` but reports a *nonzero* confidence: the nearest entry to
the fallback Lab `(50,0,0)` is within ΔE2000 < 17, so the ΔE-based match
confidence is positive, contradicting the specification's
`confidence = 0`. -/
theorem recognizeFallback_confidence_not_zero :
    (recognizeFallback (loadFromColorCards [("gray", "#777777")])).rgb
        = (128, 128, 128) ∧
    (recognizeFallback (loadFromColorCards [("gray", "#777777")])).confidence
        ≠ 0 := by
  constructor
  · rfl
  · have hconf : (recognizeFallback
        (loadFromColorCards [("gray", "#777777")])).confidence
        = matchConfidence (deltaE2000 ((50:ℝ), (0:ℝ), (0:ℝ))
            (rgbToLab ((119:ℕ):ℝ) ((119:ℕ):ℝ) ((119:ℕ):ℝ))) := rfl
    have hcast : ((119:ℕ):ℝ) = (119:ℝ) := by norm_num
    rw [hcast] at hconf
    rw [hconf]
    exact ne_of_gt (matchConfidence_pos _ deltaE_gray119_lt_17)

end Pindou
